import Mathlib

/-!
# NetOutput (src/output/net_output.cpp)

A shallow embedding of the network frame sink: the constructor (parsing of
`options->output` with `sscanf`, socket set-up per mode), `outputBuffer`
(accept on demand, chunked `sendto` loop) and the destructor.

Conventions of the embedding.

* The operating system is an explicit oracle: every system call the code
  issues is appended to a trace of `Call`s together with the value the
  oracle returned for it.
* A C++ exception leaving a function is recorded in the field `thrown`
  (the `what()` text of the `std::runtime_error`).
* A C string is the list of its bytes, each byte written as the `Char` with
  that code.
* The C library functions the constructor calls (`sscanf` with its one format
  string, `inet_aton`, `htons`) are not part of the repository; they are
  modelled after ISO C (7.21.6.2, the `fscanf` directives) and inet_aton(3).
-/

set_option linter.dupNamespace false

namespace NetOutput

/-! ## Data model -/

/-- Maximum size that sendto will accept (`constexpr size_t MAX_UDP_SIZE`). -/
def MAX_UDP_SIZE : Nat := 65507

/-- The value of `sizeof(sockaddr_in)`. -/
def sizeof_sockaddr_in : Nat := 16

/-- The value of `INADDR_ANY`. -/
def INADDR_ANY : Nat := 0

/-- An IPv4 socket address (`sockaddr_in` with `sin_family = AF_INET`).  The
fields hold the address and the port they denote; the network byte order of
their in-memory representation is not modelled. -/
structure sockaddr_in where
  sin_addr : Nat
  sin_port : Nat
  deriving DecidableEq

/-- The data members of a `NetOutput` object.  `saddr_ptr_` is `true` when the
pointer is `&saddr_` and `false` when it is `NULL`. -/
structure Sink where
  fd_ : Int
  listen_fd_ : Int
  saddr_ : sockaddr_in
  saddr_ptr_ : Bool
  sockaddr_in_size_ : Nat
  deriving DecidableEq

/-- Socket types passed to `socket(AF_INET, type, 0)`. -/
inductive SockType where
  | SOCK_DGRAM
  | SOCK_STREAM
  deriving DecidableEq

/-- One system call issued by the code, with its arguments and the value it
returned.  `sendto fd off len dest addrlen ret` is
`sendto(fd, mem + off, len, 0, dest, addrlen)`; `dest = none` is a `NULL`
destination. -/
inductive Call where
  | socket (type : SockType) (ret : Int)
  | setsockopt_reuseaddr (fd : Int) (ret : Int)
  | fcntl_nonblock (fd : Int) (ret : Int)
  | bind (fd : Int) (addr : sockaddr_in) (ret : Int)
  | listen (fd : Int) (backlog : Nat)
  | connect (fd : Int) (addr : sockaddr_in) (ret : Int)
  | accept (fd : Int) (ret : Int)
  | setsockopt_nodelay (fd : Int) (ret : Int)
  | sendto (fd : Int) (off len : Nat) (dest : Option sockaddr_in) (addrlen : Nat) (ret : Int)
  | close (fd : Int)
  deriving DecidableEq

/-- What the operating system answers during one `outputBuffer` call:
the return value of `accept` and the peer address it reports, the return
value of `setsockopt(TCP_NODELAY)`, and the return value of the `k`-th
`sendto` of the call (`k = 0, 1, ...`). -/
structure Net where
  accept : Int
  accept_peer : sockaddr_in
  setsockopt : Int
  sendto : Nat → Int

/-- The state of a call when control leaves it: the object, the system calls
issued in order, and the message of the exception thrown, if any. -/
structure Run where
  sink : Sink
  calls : List Call
  thrown : Option String
  deriving DecidableEq

/-- Prepend earlier system calls to the trace of a run. -/
def Run.after (pre : List Call) (r : Run) : Run :=
  { r with calls := pre ++ r.calls }

/-! ## outputBuffer -/

/-- The return value of `sendto` on descriptor `fd`: a negative descriptor is
rejected by the kernel (`EBADF`), otherwise the oracle decides. -/
def sendto_ret (net : Net) (fd : Int) (k : Nat) : Int :=
  if fd < 0 then -1 else net.sendto k

/-- The loop `for (uint8_t *ptr = mem; size;)` of `outputBuffer`.  `off` is
`ptr - mem`, `k` counts the `sendto` calls already made.  The first argument
is fuel: `none` means the fuel ran out before `size` reached zero. -/
def sendLoop (net : Net) (max_size : Nat) :
    Nat → Sink → Nat → Nat → Nat → Option Run
  | fuel, s, off, size, k =>
    if size = 0 then some ⟨s, [], none⟩
    else
      match fuel with
      | 0 => none
      | fuel + 1 =>
        let bytes_to_send := min size max_size
        let ret := sendto_ret net s.fd_ k
        let call := Call.sendto s.fd_ off bytes_to_send
          (if s.saddr_ptr_ then some s.saddr_ else none) s.sockaddr_in_size_ ret
        if ret < 0 then
          if s.listen_fd_ ≠ 0 then
            (sendLoop net max_size fuel { s with fd_ := -1 }
              (off + bytes_to_send) (size - bytes_to_send) (k + 1)).map (Run.after [call])
          else
            some ⟨s, [call], some "failed to send data on socket"⟩
        else
          (sendLoop net max_size fuel s
            (off + bytes_to_send) (size - bytes_to_send) (k + 1)).map (Run.after [call])

/-- The part of `outputBuffer` after the accept step: choose `max_size` and
run the send loop.  Every iteration with `max_size ≥ 1` consumes at least one
byte, so `size` iterations of fuel are enough. -/
def sendAll (net : Net) (s : Sink) (size : Nat) : Option Run :=
  let max_size := if s.saddr_ptr_ then MAX_UDP_SIZE else size
  sendLoop net max_size size s 0 size 0

/-- `NetOutput::outputBuffer(mem, size, timestamp_us, flags)`.  The buffer
contents do not influence control flow; each `sendto` is recorded with the
offset and length of the slice of `mem` it carries. -/
def outputBuffer (net : Net) (s : Sink) (size : Nat) : Option Run :=
  if 0 ≤ s.listen_fd_ ∧ s.fd_ < 0 then
    let fd := net.accept
    if 0 ≤ fd then
      -- accept stores the peer address, truncated to the length passed in,
      -- and the length of the peer address
      let s1 : Sink := { s with
        fd_ := fd
        saddr_ := if sizeof_sockaddr_in ≤ s.sockaddr_in_size_ then net.accept_peer else s.saddr_
        sockaddr_in_size_ := sizeof_sockaddr_in }
      let pre := [Call.accept s.listen_fd_ fd, Call.setsockopt_nodelay fd net.setsockopt]
      if net.setsockopt < 0 then
        some ⟨s1, pre, some "failed to setsockopt client socket"⟩
      else
        (sendAll net s1 size).map (Run.after pre)
    else
      (sendAll net s size).map (Run.after [Call.accept s.listen_fd_ fd])
  else
    sendAll net s size

/-- `NetOutput::~NetOutput()`: the `close` calls it issues. -/
def destructor (s : Sink) : List Call :=
  (if 0 ≤ s.fd_ then [Call.close s.fd_] else []) ++
  (if 0 ≤ s.listen_fd_ then [Call.close s.listen_fd_] else [])

/-- The bytes of `mem` a `sendto` call carries. -/
def Call.payload (mem : List Nat) : Call → List Nat
  | Call.sendto _ off len _ _ _ => (mem.drop off).take len
  | _ => []

/-- The length argument of a `sendto` call (zero for other calls). -/
def Call.len : Call → Nat
  | Call.sendto _ _ len _ _ _ => len
  | _ => 0

/-- The handle a call hands to the program, if any: the return value of a
successful `socket` or `accept`. -/
def Call.obtained : Call → Option Int
  | Call.socket _ ret => if 0 ≤ ret then some ret else none
  | Call.accept _ ret => if 0 ≤ ret then some ret else none
  | _ => none

/-- The handle a call closes, if any. -/
def Call.closed : Call → Option Int
  | Call.close fd => some fd
  | _ => none

/-! ## C library functions used by the constructor -/

/-- `isspace` in the C locale: space, `\t`, `\n`, `\v`, `\f`, `\r`. -/
def isspace (c : Char) : Bool :=
  c.toNat = 32 || (9 ≤ c.toNat && c.toNat ≤ 13)

/-- `isdigit`: the characters `0` to `9`. -/
def isdigit (c : Char) : Bool :=
  48 ≤ c.toNat && c.toNat ≤ 57

/-- `std::string::c_str()` as seen by a C function: the bytes before the first
NUL. -/
def c_str (s : List Char) : List Char :=
  s.takeWhile (fun c => c.toNat ≠ 0)

/-- `std::string::substr(pos, len)`. -/
def substr (s : List Char) (pos len : Nat) : List Char :=
  (s.drop pos).take len

/-- The number a string of digits denotes in base `base`, continuing from `acc`. -/
def digits_value (base : Nat) (acc : Nat) : List Char → Nat
  | [] => acc
  | c :: cs => digits_value base (acc * base + (c.toNat - 48)) cs

/-- Conversion of the number read by `%d` to the `int` that is stored.  In range
it is the number itself.  Out of range (undefined in ISO C) the model follows
glibc on an LP64 platform: `strtol` saturates at `LONG_MIN`/`LONG_MAX` and the
`long` is truncated to 32 bits. -/
def to_int (v : Int) : Int :=
  let l : Int := max (-(2 : Int) ^ 63) (min v ((2 : Int) ^ 63 - 1))
  (l + 2 ^ 31) % 2 ^ 32 - 2 ^ 31

/-- The `scanf` directive `%Ns`: skip white space, then read up to `width`
non-white-space characters.  `none` is an input failure (end of input). -/
def scan_s (width : Nat) (inp : List Char) : Option (List Char × List Char) :=
  let inp := inp.dropWhile isspace
  if inp = [] then none
  else
    let tok := (inp.takeWhile (fun c => !isspace c)).take width
    some (tok, inp.drop tok.length)

/-- An ordinary character in a `scanf` format: the next input character must
be that character. -/
def scan_lit (c : Char) : List Char → Option (List Char)
  | [] => none
  | x :: r => if x = c then some r else none

/-- The `scanf` directive `%d`: skip white space, read an optional sign and a
non-empty run of decimal digits. -/
def scan_d (inp : List Char) : Option (Int × List Char) :=
  let inp := inp.dropWhile isspace
  let neg := inp.head? = some '-'
  let body := if inp.head? = some '-' ∨ inp.head? = some '+' then inp.tail else inp
  let ds := body.takeWhile isdigit
  if ds = [] then none
  else
    let v : Int := digits_value 10 0 ds
    some (to_int (if neg then -v else v), body.drop ds.length)

/-- The variables assigned by the `sscanf` call of the constructor when all
six conversions succeed. -/
structure Scanned where
  protocol : List Char
  start : Nat
  a : Int
  b : Int
  c : Int
  d : Int
  end_ : Nat
  port : Int
  deriving DecidableEq

/-- The call
`sscanf(str, "%3s://%n%d.%d.%d.%d%n:%d", protocol, &start, &a, &b, &c, &d, &end, &port)`.
`Except.ok` is the return value 6 with the values stored; `Except.error n` is
the return value `n` of a scan that stopped early (`-1` is `EOF`).  `%n` stores
the number of characters consumed so far and does not count as a conversion. -/
def sscanf_output (str : List Char) : Except Int Scanned :=
  match scan_s 3 str with
  | none => .error (-1)
  | some (protocol, r) =>
  match (scan_lit ':' r).bind (scan_lit '/') |>.bind (scan_lit '/') with
  | none => .error 1
  | some r =>
  let start := str.length - r.length
  match scan_d r with
  | none => .error 1
  | some (a, r) =>
  match (scan_lit '.' r).bind scan_d with
  | none => .error 2
  | some (b, r) =>
  match (scan_lit '.' r).bind scan_d with
  | none => .error 3
  | some (c, r) =>
  match (scan_lit '.' r).bind scan_d with
  | none => .error 4
  | some (d, r) =>
  let end_ := str.length - r.length
  match (scan_lit ':' r).bind scan_d with
  | none => .error 5
  | some (port, _) => .ok ⟨protocol, start, a, b, c, d, end_, port⟩

/-- The value of a digit in base 8, 10 or 16, if the character is one. -/
def digit_in (base : Nat) (c : Char) : Option Nat :=
  let v : Option Nat :=
    if isdigit c then some (c.toNat - 48)
    else if 97 ≤ c.toNat ∧ c.toNat ≤ 102 then some (c.toNat - 87)
    else if 65 ≤ c.toNat ∧ c.toNat ≤ 70 then some (c.toNat - 55)
    else none
  v.bind fun n => if n < base then some n else none

/-- Read the longest run of base-`base` digits: its value and the rest. -/
def read_number (base : Nat) (acc : Nat) : List Char → Nat × List Char
  | [] => (acc, [])
  | c :: cs =>
    match digit_in base c with
    | some n => read_number base (acc * base + n) cs
    | none => (acc, c :: cs)

/-- The call `strtoul(cp, &endp, 0)` on input that starts with a digit: `0x` or
`0X` followed by a hexadecimal digit starts a hexadecimal number, a leading
`0` an octal one, anything else a decimal one.  The value is not bounded here;
the caller rejects what does not fit. -/
def strtoul0 (cp : List Char) : Nat × List Char :=
  match cp with
  | '0' :: x :: h :: t =>
    if (x = 'x' ∨ x = 'X') ∧ (digit_in 16 h).isSome then read_number 16 0 (h :: t)
    else read_number 8 0 (x :: h :: t)
  | '0' :: t => read_number 8 0 t
  | _ => read_number 10 0 cp

/-- The limit of the last part of an address by the number of parts stored
before it, the table `max[4]` = `0xffffffff, 0xffffff, 0xffff, 0xff`. -/
def inet_aton_max (stored : Nat) : Nat :=
  2 ^ (32 - 8 * stored) - 1

/-- The loop of `inet_aton`, following the numbers-and-dots notation of
inet_aton(3): up to three parts of one byte each, followed by a `.`, and a last
part that fills the remaining bytes; white space may follow.  `stored` is the
number of bytes already stored and `word` their value.  The first argument
bounds the number of parts. -/
def inet_aton_loop : Nat → List Char → Nat → Nat → Option Nat
  | 0, _, _, _ => none
  | fuel + 1, cp, stored, word =>
    match cp with
    | [] => none
    | c :: _ =>
      if !isdigit c then none
      else
        let (val, cp1) := strtoul0 cp
        if val > 0xffffffff then none
        else
          match cp1 with
          | '.' :: cp2 =>
            if stored > 2 ∨ val > 0xff then none
            else inet_aton_loop fuel cp2 (stored + 1) (word + val * 2 ^ (24 - 8 * stored))
          | [] => if val > inet_aton_max stored then none else some (word + val)
          | t :: _ =>
            if ¬ (t.toNat ≤ 127 ∧ isspace t) then none
            else if val > inet_aton_max stored then none
            else some (word + val)

/-- `inet_aton(cp, &addr)`: `some addr` when it returns non-zero. -/
def inet_aton (cp : List Char) : Option Nat :=
  inet_aton_loop 4 cp 0 0

/-- `htons(port)` applied to an `int`: the argument is converted to
`uint16_t`, that is reduced modulo `2^16`. -/
def htons (port : Int) : Nat :=
  (port % 65536).toNat

/-! ## Constructor -/

/-- The two members of `VideoOptions` the constructor reads. -/
structure VideoOptions where
  output : String
  listen : Bool

/-- What the operating system answers during construction: the return values
of `socket`, `setsockopt(SO_REUSEADDR)`, `fcntl`, `bind` and `connect`, and the
indeterminate initial content of the member `saddr_`, which the server branch
never assigns. -/
structure Sys where
  socket : Int
  setsockopt : Int
  fcntl : Int
  bind : Int
  connect : Int
  saddr_uninit : sockaddr_in

/-- How the constructor ends: with the object, or with the message of the
`std::runtime_error` it throws; and the system calls it issued. -/
structure Construction where
  result : Except String Sink
  calls : List Call

/-- `NetOutput::NetOutput(VideoOptions const *options)`. -/
def NetOutput (options : VideoOptions) (sys : Sys) : Construction :=
  match sscanf_output (c_str options.output.data) with
  | .error _ => ⟨.error ("bad network address " ++ options.output), []⟩
  | .ok v =>
    let address := substr options.output.data v.start (v.end_ - v.start)
    if v.protocol = "udp".data then
      match inet_aton (c_str address) with
      | none => ⟨.error ("inet_aton failed for " ++ String.mk address), []⟩
      | some addr =>
        let saddr : sockaddr_in := ⟨addr, htons v.port⟩
        let fd := sys.socket
        let calls := [Call.socket SockType.SOCK_DGRAM fd]
        if fd < 0 then ⟨.error "unable to open udp socket", calls⟩
        else ⟨.ok ⟨fd, -1, saddr, true, sizeof_sockaddr_in⟩, calls⟩
    else if v.protocol = "tcp".data then
      if options.listen then
        -- We are the server.
        let listen_fd := sys.socket
        let calls := [Call.socket SockType.SOCK_STREAM listen_fd]
        if listen_fd < 0 then ⟨.error "unable to open listen socket", calls⟩
        else
          let server_saddr : sockaddr_in := ⟨INADDR_ANY, htons v.port⟩
          let calls := calls ++ [Call.setsockopt_reuseaddr listen_fd sys.setsockopt]
          if sys.setsockopt < 0 then ⟨.error "failed to setsockopt listen socket", calls⟩
          else
            let calls := calls ++ [Call.fcntl_nonblock listen_fd sys.fcntl]
            if sys.fcntl < 0 then ⟨.error "failed to fcntl listen socket", calls⟩
            else
              let calls := calls ++ [Call.bind listen_fd server_saddr sys.bind]
              if sys.bind < 0 then ⟨.error "failed to bind listen socket", calls⟩
              else
                let calls := calls ++ [Call.listen listen_fd 1]
                ⟨.ok ⟨-1, listen_fd, sys.saddr_uninit, false, 0⟩, calls⟩
      else
        -- We are a client.
        match inet_aton (c_str address) with
        | none => ⟨.error ("inet_aton failed for " ++ String.mk address), []⟩
        | some addr =>
          let saddr : sockaddr_in := ⟨addr, htons v.port⟩
          let fd := sys.socket
          let calls := [Call.socket SockType.SOCK_STREAM fd]
          if fd < 0 then ⟨.error "unable to open client socket", calls⟩
          else
            let calls := calls ++ [Call.connect fd saddr sys.connect]
            if sys.connect < 0 then ⟨.error "connect to server failed", calls⟩
            else ⟨.ok ⟨fd, -1, saddr, false, 0⟩, calls⟩
    else
      ⟨.error ("unrecognised network protocol " ++ options.output), []⟩

/-! ## Configuration strings -/

/-- What stops a number: the end of the input or a character that is not a
digit. -/
def stops (rest : List Char) : Prop :=
  ∀ c, rest.head? = some c → isdigit c = false

/-- The text `a.b.c.d` with the four numbers written in decimal. -/
def dotted (a b c d : Nat) : String :=
  toString a ++ "." ++ toString b ++ "." ++ toString c ++ "." ++ toString d

/-- The configuration string `scheme://a.b.c.d:port` with the numbers written
in decimal (a negative port with a leading minus sign). -/
def config (scheme : String) (a b c d : Nat) (port : Int) : String :=
  scheme ++ "://" ++ dotted a b c d ++ ":" ++ toString port

/-- The separator between scheme and address. -/
def sep : List Char := [':', '/', '/']

/-- A sequence of `outputBuffer` calls on one object, each with the answers
of the operating system and the payload size; an exception ends the sequence.
The result is the object as it is left and the system calls issued. -/
def outputBuffers (s : Sink) : List (Net × Nat) → Option (Sink × List Call)
  | [] => some (s, [])
  | (net, size) :: rest =>
    match outputBuffer net s size with
    | none => none
    | some r =>
      if r.thrown.isSome then some (r.sink, r.calls)
      else (outputBuffers r.sink rest).map fun p => (p.1, r.calls ++ p.2)

/-- The system calls of a whole life of an object: construction, a sequence
of `outputBuffer` calls, destruction.  When construction throws there is no
object and no destructor runs. -/
def lifetime (options : VideoOptions) (sys : Sys) (frames : List (Net × Nat)) :
    Option (List Call) :=
  match (NetOutput options sys).result with
  | .error _ => some (NetOutput options sys).calls
  | .ok s =>
    (outputBuffers s frames).map fun p =>
      (NetOutput options sys).calls ++ p.2 ++ destructor p.1

/-! ## outputBuffer: the send loop -/

theorem sendLoop_zero (net : Net) (M fuel : Nat) (s : Sink) (off k : Nat) :
    sendLoop net M fuel s off 0 k = some ⟨s, [], none⟩ := by
  unfold sendLoop; simp

theorem sendto_ret_of_nonneg (net : Net) (fd : Int) (k : Nat) (hfd : 0 ≤ fd) :
    sendto_ret net fd k = net.sendto k := by
  unfold sendto_ret
  rw [if_neg (by omega)]

theorem sendto_ret_of_neg (net : Net) (fd : Int) (k : Nat) (hfd : fd < 0) :
    sendto_ret net fd k = -1 := by
  unfold sendto_ret
  rw [if_pos hfd]

/-- One iteration whose `sendto` succeeds. -/
theorem sendLoop_succ_ok (net : Net) (M fuel : Nat) (s : Sink) (off size k : Nat)
    (hsize : size ≠ 0) (hret : ¬ sendto_ret net s.fd_ k < 0) :
    sendLoop net M (fuel + 1) s off size k =
      (sendLoop net M fuel s (off + min size M) (size - min size M) (k + 1)).map
        (Run.after [Call.sendto s.fd_ off (min size M)
          (if s.saddr_ptr_ then some s.saddr_ else none) s.sockaddr_in_size_
          (sendto_ret net s.fd_ k)]) := by
  rw [sendLoop]; simp [hsize, hret]

/-- One iteration whose `sendto` fails while `listen_fd_` is non-zero. -/
theorem sendLoop_succ_fail (net : Net) (M fuel : Nat) (s : Sink) (off size k : Nat)
    (hsize : size ≠ 0) (hret : sendto_ret net s.fd_ k < 0) (hl : s.listen_fd_ ≠ 0) :
    sendLoop net M (fuel + 1) s off size k =
      (sendLoop net M fuel { s with fd_ := -1 } (off + min size M) (size - min size M) (k + 1)).map
        (Run.after [Call.sendto s.fd_ off (min size M)
          (if s.saddr_ptr_ then some s.saddr_ else none) s.sockaddr_in_size_
          (sendto_ret net s.fd_ k)]) := by
  rw [sendLoop]; simp [hsize, hret, hl]

/-- One iteration whose `sendto` fails while `listen_fd_` is zero. -/
theorem sendLoop_succ_throw (net : Net) (M fuel : Nat) (s : Sink) (off size k : Nat)
    (hsize : size ≠ 0) (hret : sendto_ret net s.fd_ k < 0) (hl : s.listen_fd_ = 0) :
    sendLoop net M (fuel + 1) s off size k =
      some ⟨s, [Call.sendto s.fd_ off (min size M)
          (if s.saddr_ptr_ then some s.saddr_ else none) s.sockaddr_in_size_
          (sendto_ret net s.fd_ k)], some "failed to send data on socket"⟩ := by
  rw [sendLoop]; simp [hsize, hret, hl]

/-- The loop returns: with `max_size ≥ 1` every iteration consumes a byte. -/
theorem sendLoop_isSome (net : Net) (M : Nat) (hM : 0 < M) :
    ∀ (fuel : Nat) (s : Sink) (off size k : Nat), size ≤ fuel →
      (sendLoop net M fuel s off size k).isSome := by
  intro fuel
  induction fuel with
  | zero =>
    intro s off size k h
    have : size = 0 := by omega
    subst this; simp [sendLoop_zero]
  | succ fuel ih =>
    intro s off size k h
    by_cases hs : size = 0
    · subst hs; simp [sendLoop_zero]
    · by_cases hret : sendto_ret net s.fd_ k < 0
      · by_cases hl : s.listen_fd_ = 0
        · simp [sendLoop_succ_throw net M fuel s off size k hs hret hl]
        · rw [sendLoop_succ_fail net M fuel s off size k hs hret hl]
          simp only [Option.isSome_map']
          apply ih; omega
      · rw [sendLoop_succ_ok net M fuel s off size k hs hret]
        simp only [Option.isSome_map']
        apply ih; omega

theorem sendAll_isSome (net : Net) (s : Sink) (size : Nat) : (sendAll net s size).isSome := by
  unfold sendAll
  by_cases hs : size = 0
  · subst hs; simp [sendLoop_zero]
  · apply sendLoop_isSome
    · split
      · decide
      · omega
    · exact le_refl _

/-- `outputBuffer` always returns or throws: the loop never runs out of fuel. -/
theorem outputBuffer_isSome (net : Net) (s : Sink) (size : Nat) :
    (outputBuffer net s size).isSome := by
  unfold outputBuffer
  split
  · simp only []
    split
    · split
      · rfl
      · simp [sendAll_isSome]
    · simp [sendAll_isSome]
  · exact sendAll_isSome net s size

/-- The trace of the send loop with a maximum chunk size of 65507 when every
`sendto` succeeds. -/
theorem sendLoop_udp (net : Net) (s : Sink) (hfd : 0 ≤ s.fd_) (hok : ∀ k, 0 ≤ net.sendto k) :
    ∀ (fuel off size k : Nat), size ≤ fuel →
      ∃ calls, sendLoop net 65507 fuel s off size k = some ⟨s, calls, none⟩ ∧
        calls.length = (size + 65506) / 65507 ∧
        (∀ i c, calls[i]? = some c → i * 65507 < size ∧
          c = Call.sendto s.fd_ (off + i * 65507) (min 65507 (size - i * 65507))
            (if s.saddr_ptr_ then some s.saddr_ else none) s.sockaddr_in_size_
            (net.sendto (k + i))) ∧
        (calls.map Call.len).sum = size ∧
        ∀ mem : List Nat, (calls.map (Call.payload mem)).flatten = (mem.drop off).take size := by
  intro fuel
  induction fuel with
  | zero =>
    intro off size k h
    have : size = 0 := by omega
    subst this
    exact ⟨[], sendLoop_zero _ _ _ _ _ _, by simp, by simp, by simp, by simp⟩
  | succ fuel ih =>
    intro off size k h
    by_cases hs : size = 0
    · subst hs
      exact ⟨[], sendLoop_zero _ _ _ _ _ _, by simp, by simp, by simp, by simp⟩
    · have hret : ¬ sendto_ret net s.fd_ k < 0 := by
        rw [sendto_ret_of_nonneg net s.fd_ k hfd]
        have := hok k
        omega
      obtain ⟨rest, hrest, hlen, hidx, hsum, hjoin⟩ :=
        ih (off + min size 65507) (size - min size 65507) (k + 1) (by omega)
      refine ⟨Call.sendto s.fd_ off (min size 65507)
          (if s.saddr_ptr_ then some s.saddr_ else none) s.sockaddr_in_size_
          (net.sendto k) :: rest, ?_, ?_, ?_, ?_, ?_⟩
      · rw [sendLoop_succ_ok net 65507 fuel s off size k hs hret, hrest]
        simp [Run.after, sendto_ret_of_nonneg net s.fd_ k hfd]
      · simp only [List.length_cons, hlen]; omega
      · intro i c hc
        cases i with
        | zero =>
          simp only [List.getElem?_cons_zero, Option.some.injEq] at hc
          subst hc
          refine ⟨by omega, ?_⟩
          simp [Nat.min_comm]
        | succ i =>
          simp only [List.getElem?_cons_succ] at hc
          obtain ⟨h1, h2⟩ := hidx i c hc
          have hmin : min size 65507 = 65507 := by omega
          refine ⟨by omega, ?_⟩
          rw [h2, hmin]
          have e1 : off + 65507 + i * 65507 = off + (i + 1) * 65507 := by ring
          have e2 : size - 65507 - i * 65507 = size - (i + 1) * 65507 := by
            rw [Nat.sub_sub]; congr 1; ring
          have e3 : k + 1 + i = k + (i + 1) := by ring
          rw [e1, e2, e3]
      · simp only [List.map_cons, List.sum_cons, hsum, Call.len]; omega
      · intro mem
        simp only [List.map_cons, List.flatten_cons, hjoin, Call.payload]
        have hsz : size = min size 65507 + (size - min size 65507) := by omega
        conv_rhs => rw [hsz, List.take_add]
        simp [List.drop_drop]

/-- With `max_size = size` the loop body runs once. -/
theorem sendLoop_stream (net : Net) (s : Sink) (size : Nat) (hsize : 0 < size) :
    ∃ r, sendLoop net size size s 0 size 0 = some r ∧
      r.calls = [Call.sendto s.fd_ 0 size (if s.saddr_ptr_ then some s.saddr_ else none)
        s.sockaddr_in_size_ (sendto_ret net s.fd_ 0)] ∧
      (r.thrown = none ↔ (sendto_ret net s.fd_ 0 < 0 → s.listen_fd_ ≠ 0)) ∧
      r.sink = (if sendto_ret net s.fd_ 0 < 0 ∧ s.listen_fd_ ≠ 0 then { s with fd_ := -1 } else s) := by
  obtain ⟨n, rfl⟩ : ∃ n, size = n + 1 := ⟨size - 1, by omega⟩
  rw [sendLoop]
  simp only [Nat.add_one_ne_zero, if_false, Nat.min_self, Nat.sub_self, zero_add, sendLoop_zero,
    Option.map_some']
  by_cases hret : sendto_ret net s.fd_ 0 < 0
  · by_cases hl : s.listen_fd_ = 0
    · simp [hret, hl]
    · simp [hret, hl, Run.after]
  · simp [hret, Run.after]

/-- The send phase of a stream sink (`saddr_ptr_` is `NULL`): no call for an
empty payload, otherwise exactly one `sendto` with the whole payload and no
destination; a failure throws exactly when `listen_fd_` is zero. -/
theorem sendAll_stream (net : Net) (s : Sink) (size : Nat) (hstream : s.saddr_ptr_ = false) :
    ∃ r, sendAll net s size = some r ∧
      r.sink.listen_fd_ = s.listen_fd_ ∧
      (size = 0 → r = ⟨s, [], none⟩) ∧
      (0 < size →
        r.calls = [Call.sendto s.fd_ 0 size none s.sockaddr_in_size_ (sendto_ret net s.fd_ 0)] ∧
        (r.thrown = none ↔ (sendto_ret net s.fd_ 0 < 0 → s.listen_fd_ ≠ 0)) ∧
        r.sink = (if sendto_ret net s.fd_ 0 < 0 ∧ s.listen_fd_ ≠ 0
          then { s with fd_ := -1 } else s)) := by
  have hM : sendAll net s size = sendLoop net size size s 0 size 0 := by
    unfold sendAll
    rw [hstream]; rfl
  rw [hM]
  by_cases h0 : size = 0
  · subst h0
    rw [sendLoop_zero]
    exact ⟨_, rfl, rfl, fun _ => rfl, fun h => absurd h (by omega)⟩
  · obtain ⟨r, hr, hcalls, hthrown, hsink⟩ := sendLoop_stream net s size (by omega)
    refine ⟨r, hr, ?_, fun h => absurd h h0, fun _ => ⟨?_, hthrown, hsink⟩⟩
    · rw [hsink]; split <;> rfl
    · rw [hcalls]; simp [hstream]

/-! ## Constructor: which branch built a sink -/

/-- A successfully constructed sink whose `saddr_ptr_` is set was built by the
`udp` branch. -/
theorem NetOutput_udp_inv (options : VideoOptions) (sys : Sys) (s : Sink)
    (h : (NetOutput options sys).result = .ok s) (hp : s.saddr_ptr_ = true) :
    ∃ v addr, sscanf_output (c_str options.output.data) = .ok v ∧
      v.protocol = "udp".data ∧
      inet_aton (c_str (substr options.output.data v.start (v.end_ - v.start))) = some addr ∧
      0 ≤ sys.socket ∧
      s = ⟨sys.socket, -1, ⟨addr, htons v.port⟩, true, sizeof_sockaddr_in⟩ := by
  unfold NetOutput at h
  split at h
  · simp at h
  · rename_i v hv
    dsimp only at h
    split at h
    · rename_i hu
      split at h
      · simp at h
      · rename_i addr ha
        split at h
        · simp at h
        · rename_i hfd
          injection h with h
          exact ⟨v, addr, hv, hu, ha, by omega, h.symm⟩
    · exfalso
      split at h
      · split at h
        · split at h
          · simp at h
          split at h
          · simp at h
          split at h
          · simp at h
          split at h
          · simp at h
          injection h with h; subst h; simp at hp
        · split at h
          · simp at h
          split at h
          · simp at h
          split at h
          · simp at h
          injection h with h; subst h; simp at hp
      · simp at h

/-! ## Decimal numerals -/

/-- The digits of `Nat.toDigits 10` do not depend on the fuel, and an
accumulator is appended behind them. -/
theorem toDigitsCore_eq (n : Nat) : ∀ (fuel : Nat) (ds : List Char), n < fuel →
    Nat.toDigitsCore 10 fuel n ds = Nat.toDigits 10 n ++ ds := by
  induction n using Nat.strong_induction_on with
  | _ n ih =>
    intro fuel ds hf
    obtain ⟨f, rfl⟩ : ∃ f, fuel = f + 1 := ⟨fuel - 1, by omega⟩
    unfold Nat.toDigits
    rw [Nat.toDigitsCore, Nat.toDigitsCore]
    by_cases h0 : n / 10 = 0
    · simp [h0]
    · simp only [h0, if_false]
      rw [ih (n / 10) (by omega) f _ (by omega), ih (n / 10) (by omega) n _ (by omega)]
      simp

/-- The numeral of `n`: a single digit below ten, otherwise the numeral of
`n / 10` followed by the last digit. -/
theorem toDigits_step (n : Nat) :
    Nat.toDigits 10 n =
      if n / 10 = 0 then [Nat.digitChar (n % 10)]
      else Nat.toDigits 10 (n / 10) ++ [Nat.digitChar (n % 10)] := by
  conv_lhs => unfold Nat.toDigits
  rw [Nat.toDigitsCore]
  by_cases h0 : n / 10 = 0
  · simp [h0]
  · simp only [h0, if_false]
    rw [toDigitsCore_eq (n / 10) n _ (by omega)]

theorem digitChar_spec : ∀ k, k < 10 →
    isdigit (Nat.digitChar k) = true ∧ (Nat.digitChar k).toNat - 48 = k ∧
      (k ≠ 0 → Nat.digitChar k ≠ '0') := by
  decide

theorem toDigits_isdigit (n : Nat) : ∀ c ∈ Nat.toDigits 10 n, isdigit c = true := by
  induction n using Nat.strong_induction_on with
  | _ n ih =>
    rw [toDigits_step]
    have hd := (digitChar_spec (n % 10) (by omega)).1
    split
    · simpa using hd
    · intro c hc
      rw [List.mem_append] at hc
      rcases hc with hc | hc
      · exact ih (n / 10) (by omega) c hc
      · simp only [List.mem_singleton] at hc
        rw [hc]; exact hd

theorem toDigits_ne_nil (n : Nat) : Nat.toDigits 10 n ≠ [] := by
  rw [toDigits_step]
  split <;> simp

theorem digits_value_cons (base acc : Nat) (c : Char) (cs : List Char) :
    digits_value base acc (c :: cs) = digits_value base (acc * base + (c.toNat - 48)) cs := rfl

theorem digits_value_nil (base acc : Nat) : digits_value base acc [] = acc := rfl

theorem digits_value_append (base acc : Nat) (xs ys : List Char) :
    digits_value base acc (xs ++ ys) = digits_value base (digits_value base acc xs) ys := by
  induction xs generalizing acc with
  | nil => rfl
  | cons x xs ih =>
    rw [List.cons_append, digits_value_cons, digits_value_cons]
    exact ih _

theorem digits_value_toDigits (n : Nat) : digits_value 10 0 (Nat.toDigits 10 n) = n := by
  induction n using Nat.strong_induction_on with
  | _ n ih =>
    rw [toDigits_step]
    have hd := (digitChar_spec (n % 10) (by omega)).2.1
    split
    · rw [digits_value_cons, digits_value_nil, hd]; omega
    · rw [digits_value_append, ih (n / 10) (by omega)]
      rw [digits_value_cons, digits_value_nil, hd]; omega

/-- The numeral of a positive number starts with a non-zero digit. -/
theorem toDigits_head (n : Nat) (hn : 0 < n) :
    ∃ c cs, Nat.toDigits 10 n = c :: cs ∧ isdigit c = true ∧ c ≠ '0' := by
  induction n using Nat.strong_induction_on with
  | _ n ih =>
    rw [toDigits_step]
    split
    · rename_i h0
      have hk := digitChar_spec (n % 10) (by omega)
      exact ⟨_, [], rfl, hk.1, hk.2.2 (by omega)⟩
    · rename_i h0
      obtain ⟨c, cs, hc, h1, h2⟩ := ih (n / 10) (by omega) (by omega)
      exact ⟨c, cs ++ [Nat.digitChar (n % 10)], by rw [hc]; rfl, h1, h2⟩

theorem toDigits_zero : Nat.toDigits 10 0 = ['0'] := by rfl


/-! ## inet_aton on a canonical dotted quad -/

theorem digit_in_ten_of_isdigit (c : Char) (h : isdigit c = true) :
    digit_in 10 c = some (c.toNat - 48) := by
  have h' := h
  simp only [isdigit, Bool.and_eq_true, decide_eq_true_eq] at h'
  unfold digit_in
  simp only [h, if_true, Option.some_bind]
  rw [if_pos (by omega)]

theorem read_number_digits (ds rest : List Char) (acc : Nat)
    (hds : ∀ c ∈ ds, isdigit c = true) (hrest : rest = [] ∨ ∃ r, rest = '.' :: r) :
    read_number 10 acc (ds ++ rest) = (digits_value 10 acc ds, rest) := by
  induction ds generalizing acc with
  | nil =>
    rcases hrest with rfl | ⟨r, rfl⟩
    · rfl
    · have : digit_in 10 '.' = none := by decide
      simp [read_number, this, digits_value_nil]
  | cons d ds ih =>
    have hd := digit_in_ten_of_isdigit d (hds d (List.mem_cons_self _ _))
    simp only [List.cons_append, read_number, hd, digits_value_cons]
    exact ih _ (fun c hc => hds c (List.mem_cons_of_mem _ hc))

/-- `strtoul(cp, &endp, 0)` reads a canonical decimal numeral as its value. -/
theorem strtoul0_toDigits (n : Nat) (rest : List Char) (hrest : rest = [] ∨ ∃ r, rest = '.' :: r) :
    strtoul0 (Nat.toDigits 10 n ++ rest) = (n, rest) := by
  have hdot : digit_in 8 '.' = none := by decide
  by_cases hn : n = 0
  · subst hn
    rw [toDigits_zero]
    rcases hrest with rfl | ⟨r, rfl⟩
    · rfl
    · cases r with
      | nil => simp [strtoul0, read_number, hdot]
      | cons h t =>
        have hx : ¬ (('.' : Char) = 'x' ∨ ('.' : Char) = 'X') := by decide
        simp [strtoul0, read_number, hdot, hx]
  · obtain ⟨c, cs, hc, hdig, h0⟩ := toDigits_head n (by omega)
    have hv := digits_value_toDigits n
    have hall := toDigits_isdigit n
    have hr := read_number_digits (Nat.toDigits 10 n) rest 0 hall hrest
    rw [hv] at hr
    rw [hc] at hr ⊢
    rw [← hr]
    unfold strtoul0
    split
    · rename_i heq; simp at heq; exact absurd heq.1 h0
    · rename_i heq; simp at heq; exact absurd heq.1 h0
    · rfl

theorem c_str_of_no_nul (xs : List Char) (h : ∀ c ∈ xs, c.toNat ≠ 0) : c_str xs = xs := by
  unfold c_str
  rw [List.takeWhile_eq_self_iff]
  intro c hc
  simpa using h c hc

theorem isdigit_toNat_ne_zero (c : Char) (h : isdigit c = true) : c.toNat ≠ 0 := by
  simp only [isdigit, Bool.and_eq_true, decide_eq_true_eq] at h
  omega

/-- One part of a dotted quad that is followed by a dot. -/
theorem inet_aton_loop_part (fuel n stored word : Nat) (R : List Char)
    (hn : n ≤ 255) (hs : stored ≤ 2) :
    inet_aton_loop (fuel + 1) (Nat.toDigits 10 n ++ '.' :: R) stored word =
      inet_aton_loop fuel R (stored + 1) (word + n * 2 ^ (24 - 8 * stored)) := by
  have hst := strtoul0_toDigits n ('.' :: R) (Or.inr ⟨R, rfl⟩)
  obtain ⟨c, cs, hc⟩ := List.exists_cons_of_ne_nil (toDigits_ne_nil n)
  have hdig : isdigit c = true := toDigits_isdigit n c (by rw [hc]; exact List.mem_cons_self _ _)
  rw [hc] at hst ⊢
  simp only [List.cons_append] at hst ⊢
  rw [inet_aton_loop]
  simp only [hdig, Bool.not_true, Bool.false_eq_true, if_false, hst]
  rw [if_neg (by omega), if_neg (by omega)]

/-- The last part of a dotted quad. -/
theorem inet_aton_loop_last (fuel n word : Nat) (hn : n ≤ 255) :
    inet_aton_loop (fuel + 1) (Nat.toDigits 10 n) 3 word = some (word + n) := by
  have hst := strtoul0_toDigits n [] (Or.inl rfl)
  obtain ⟨c, cs, hc⟩ := List.exists_cons_of_ne_nil (toDigits_ne_nil n)
  have hdig : isdigit c = true := toDigits_isdigit n c (by rw [hc]; exact List.mem_cons_self _ _)
  rw [List.append_nil] at hst
  rw [hc] at hst ⊢
  rw [inet_aton_loop]
  simp only [hdig, Bool.not_true, Bool.false_eq_true, if_false, hst]
  rw [if_neg (by omega)]
  have : inet_aton_max 3 = 255 := by decide
  rw [this, if_neg (by omega)]

/-- The address `inet_aton` makes of the canonical text `a.b.c.d`. -/
theorem inet_aton_dotted (a b c d : Nat) (ha : a ≤ 255) (hb : b ≤ 255) (hc : c ≤ 255)
    (hd : d ≤ 255) :
    inet_aton (Nat.toDigits 10 a ++ '.' :: (Nat.toDigits 10 b ++ '.' ::
        (Nat.toDigits 10 c ++ '.' :: Nat.toDigits 10 d))) =
      some (a * 2 ^ 24 + b * 2 ^ 16 + c * 2 ^ 8 + d) := by
  unfold inet_aton
  rw [inet_aton_loop_part 3 a 0 0 _ ha (by omega), inet_aton_loop_part 2 b 1 _ _ hb (by omega),
    inet_aton_loop_part 1 c 2 _ _ hc (by omega), inet_aton_loop_last 0 d _ hd]
  simp

/-! ## The scanf directives on canonical input -/

theorem takeWhile_append_stop {α : Type} (p : α → Bool) (xs ys : List α)
    (hx : ∀ c ∈ xs, p c = true) (hy : ∀ c, ys.head? = some c → p c = false) :
    (xs ++ ys).takeWhile p = xs := by
  induction xs with
  | nil =>
    cases ys with
    | nil => rfl
    | cons y ys => simp [List.takeWhile_cons, hy y rfl]
  | cons x xs ih =>
    simp only [List.cons_append, List.takeWhile_cons, hx x (List.mem_cons_self _ _), if_true]
    rw [ih (fun c hc => hx c (List.mem_cons_of_mem _ hc))]

theorem isdigit_not_space (c : Char) (h : isdigit c = true) : isspace c = false := by
  simp only [isdigit, isspace, Bool.and_eq_true, decide_eq_true_eq, Bool.or_eq_false_iff,
    decide_eq_false_iff_not, Bool.and_eq_false_imp] at *
  omega

theorem isdigit_ne (c x : Char) (h : isdigit c = true) (hx : isdigit x = false) : c ≠ x := by
  intro e; rw [e, hx] at h; exact Bool.noConfusion h

/-- `%d` on a run of digits followed by something that is not a digit. -/
theorem scan_d_digits (ds rest : List Char) (hne : ds ≠ [])
    (hds : ∀ c ∈ ds, isdigit c = true) (hrest : ∀ c, rest.head? = some c → isdigit c = false) :
    scan_d (ds ++ rest) = some (to_int (digits_value 10 0 ds), rest) := by
  obtain ⟨c, cs, rfl⟩ := List.exists_cons_of_ne_nil hne
  have hc := hds c (List.mem_cons_self _ _)
  have hsp := isdigit_not_space c hc
  have hminus : c ≠ '-' := isdigit_ne c '-' hc (by decide)
  have hplus : c ≠ '+' := isdigit_ne c '+' hc (by decide)
  have htw := takeWhile_append_stop isdigit (c :: cs) rest hds hrest
  unfold scan_d
  simp only [List.cons_append, List.dropWhile_cons, hsp, Bool.false_eq_true, if_false,
    List.head?_cons, Option.some.injEq, hminus, hplus, or_self, decide_False]
  rw [← List.cons_append, htw]
  simp

/-- `%d` on a minus sign and a run of digits. -/
theorem scan_d_minus_digits (ds rest : List Char) (hne : ds ≠ [])
    (hds : ∀ c ∈ ds, isdigit c = true) (hrest : ∀ c, rest.head? = some c → isdigit c = false) :
    scan_d ('-' :: (ds ++ rest)) = some (to_int (-(digits_value 10 0 ds : Int)), rest) := by
  have htw := takeWhile_append_stop isdigit ds rest hds hrest
  have hsp : isspace '-' = false := by decide
  unfold scan_d
  simp only [List.dropWhile_cons, hsp, Bool.false_eq_true, if_false,
    List.head?_cons, true_or, if_true, List.tail_cons, htw, decide_True]
  simp [hne]

theorem to_int_of_range (v : Int) (h1 : -2147483648 ≤ v) (h2 : v ≤ 2147483647) : to_int v = v := by
  unfold to_int
  have e1 : min v ((2 : Int) ^ 63 - 1) = v := by
    apply min_eq_left; norm_num; omega
  have e2 : max (-(2 : Int) ^ 63) v = v := by
    apply max_eq_right; norm_num; omega
  simp only [e1, e2]
  norm_num
  omega

/-- `%3s` on three characters that are not white space. -/
theorem scan_s_three (x y z : Char) (r : List Char)
    (hx : isspace x = false) (hy : isspace y = false) (hz : isspace z = false) :
    scan_s 3 (x :: y :: z :: r) = some ([x, y, z], r) := by
  unfold scan_s
  simp [List.dropWhile_cons, List.takeWhile_cons, hx, hy, hz]

theorem scan_lit_cons (c : Char) (r : List Char) : scan_lit c (c :: r) = some r := by
  simp [scan_lit]


theorem stops_nil : stops [] := by intro c h; simp at h
theorem stops_dot (r : List Char) : stops ('.' :: r) := by
  intro c h; simp at h; subst h; decide
theorem stops_colon (r : List Char) : stops (':' :: r) := by
  intro c h; simp at h; subst h; decide

/-- The `sscanf` call on a three-character scheme, `://`, four numbers
separated by dots, a colon and a number. -/
theorem sscanf_output_tokens (x y z : Char) (A B C D P tail : List Char) (va vb vc vd vp : Int)
    (hx : isspace x = false) (hy : isspace y = false) (hz : isspace z = false)
    (hA : ∀ rest, stops rest → scan_d (A ++ rest) = some (va, rest))
    (hB : ∀ rest, stops rest → scan_d (B ++ rest) = some (vb, rest))
    (hC : ∀ rest, stops rest → scan_d (C ++ rest) = some (vc, rest))
    (hD : ∀ rest, stops rest → scan_d (D ++ rest) = some (vd, rest))
    (hP : ∀ rest, stops rest → scan_d (P ++ rest) = some (vp, rest))
    (htail : stops tail) :
    sscanf_output (x :: y :: z :: ':' :: '/' :: '/' ::
        (A ++ '.' :: (B ++ '.' :: (C ++ '.' :: (D ++ ':' :: (P ++ tail)))))) =
      .ok ⟨[x, y, z], 6, va, vb, vc, vd,
        6 + (A ++ '.' :: (B ++ '.' :: (C ++ '.' :: D))).length, vp⟩ := by
  unfold sscanf_output
  simp only [scan_s_three x y z _ hx hy hz, scan_lit_cons, Option.bind_eq_bind, Option.some_bind,
    hA _ (stops_dot _), hB _ (stops_dot _), hC _ (stops_dot _), hD _ (stops_colon _), hP _ htail]
  simp only [List.length_cons, List.length_append]
  congr 1
  · congr 1 <;> omega

/-! ## Canonical configuration strings -/

theorem toString_nat_data (n : Nat) : (toString n).data = Nat.toDigits 10 n := rfl

theorem toString_int_data (p : Int) :
    (toString p).data =
      if p < 0 then '-' :: Nat.toDigits 10 p.natAbs else Nat.toDigits 10 p.natAbs := by
  cases p with
  | ofNat m =>
    have : ¬ (Int.ofNat m < 0) := by simp
    rw [if_neg this]; rfl
  | negSucc m =>
    have : Int.negSucc m < 0 := Int.negSucc_lt_zero m
    rw [if_pos this]; rfl

theorem dotted_data (a b c d : Nat) :
    (dotted a b c d).data =
      Nat.toDigits 10 a ++ '.' :: (Nat.toDigits 10 b ++ '.' ::
        (Nat.toDigits 10 c ++ '.' :: Nat.toDigits 10 d)) := by
  unfold dotted
  simp only [String.data_append, toString_nat_data, List.append_assoc]
  rfl

theorem config_data (scheme : String) (a b c d : Nat) (p : Int) :
    (config scheme a b c d p).data =
      scheme.data ++ ':' :: '/' :: '/' :: (Nat.toDigits 10 a ++ '.' :: (Nat.toDigits 10 b ++ '.' ::
        (Nat.toDigits 10 c ++ '.' :: (Nat.toDigits 10 d ++ ':' :: (toString p).data)))) := by
  unfold config
  simp only [String.data_append, dotted_data, List.append_assoc, List.cons_append]
  rfl

/-- `%d` reads the decimal text of a natural number. -/
theorem scan_d_nat (n : Nat) (rest : List Char) (h : stops rest) :
    scan_d (Nat.toDigits 10 n ++ rest) = some (to_int n, rest) := by
  have := scan_d_digits (Nat.toDigits 10 n) rest (toDigits_ne_nil n) (toDigits_isdigit n) h
  rw [digits_value_toDigits] at this
  exact this

/-- `%d` reads the decimal text of an integer. -/
theorem scan_d_int (p : Int) (rest : List Char) (h : stops rest) :
    scan_d ((toString p).data ++ rest) = some (to_int p, rest) := by
  rw [toString_int_data]
  split
  · rename_i hneg
    have := scan_d_minus_digits (Nat.toDigits 10 p.natAbs) rest (toDigits_ne_nil _)
      (toDigits_isdigit _) h
    rw [digits_value_toDigits] at this
    rw [List.cons_append, this]
    congr 3
    omega
  · rename_i hpos
    rw [scan_d_nat _ _ h]
    congr 3
    omega

theorem toString_int_no_nul (p : Int) : ∀ c ∈ (toString p).data, c.toNat ≠ 0 := by
  intro c hc
  rw [toString_int_data] at hc
  split at hc
  · rcases List.mem_cons.mp hc with h | h
    · rw [h]; decide
    · exact isdigit_toNat_ne_zero c (toDigits_isdigit _ c h)
  · exact isdigit_toNat_ne_zero c (toDigits_isdigit _ c hc)

theorem toString_int_no_colon (p : Int) : ':' ∉ (toString p).data := by
  intro hc
  have hcol : isdigit ':' = false := by decide
  rw [toString_int_data] at hc
  split at hc
  · rcases List.mem_cons.mp hc with h | h
    · exact absurd h (by decide)
    · rw [toDigits_isdigit _ _ h] at hcol; exact Bool.noConfusion hcol
  · rw [toDigits_isdigit _ _ hc] at hcol; exact Bool.noConfusion hcol

theorem config_no_nul (x y z : Char) (a b c d : Nat) (p : Int)
    (hx : x.toNat ≠ 0) (hy : y.toNat ≠ 0) (hz : z.toNat ≠ 0) :
    c_str (config ⟨[x, y, z]⟩ a b c d p).data = (config ⟨[x, y, z]⟩ a b c d p).data := by
  apply c_str_of_no_nul
  rw [config_data]
  have hd := fun n c h => isdigit_toNat_ne_zero c (toDigits_isdigit n c h)
  have hp := toString_int_no_nul p
  have h1 : (':' : Char).toNat ≠ 0 := by decide
  have h2 : ('/' : Char).toNat ≠ 0 := by decide
  have h3 : ('.' : Char).toNat ≠ 0 := by decide
  simp only [List.forall_mem_append, List.forall_mem_cons, List.cons_append, List.nil_append]
  exact ⟨hx, hy, hz, h1, h2, h2, hd a, h3, hd b, h3, hd c, h3, hd d, h1, hp⟩


/-- The `sscanf` call on `xyz://a.b.c.d:port`: all six conversions succeed,
`start` is 6 and `end` is the index of the colon before the port. -/
theorem sscanf_output_config (x y z : Char) (a b c d : Nat) (p : Int)
    (hx : isspace x = false) (hy : isspace y = false) (hz : isspace z = false)
    (hx0 : x.toNat ≠ 0) (hy0 : y.toNat ≠ 0) (hz0 : z.toNat ≠ 0) :
    sscanf_output (c_str (config ⟨[x, y, z]⟩ a b c d p).data) =
      .ok ⟨[x, y, z], 6, to_int a, to_int b, to_int c, to_int d,
        6 + (dotted a b c d).data.length, to_int p⟩ := by
  rw [config_no_nul x y z a b c d p hx0 hy0 hz0, config_data, dotted_data]
  have h := sscanf_output_tokens x y z (Nat.toDigits 10 a) (Nat.toDigits 10 b)
    (Nat.toDigits 10 c) (Nat.toDigits 10 d) (toString p).data [] (to_int a) (to_int b)
    (to_int c) (to_int d) (to_int p) hx hy hz (scan_d_nat a) (scan_d_nat b) (scan_d_nat c)
    (scan_d_nat d) (scan_d_int p) stops_nil
  rw [List.append_nil] at h
  exact h

/-- The address text the constructor cuts out of `xyz://a.b.c.d:port`. -/
theorem substr_config (x y z : Char) (a b c d : Nat) (p : Int) :
    substr (config ⟨[x, y, z]⟩ a b c d p).data 6 (6 + (dotted a b c d).data.length - 6) =
      (dotted a b c d).data := by
  rw [config_data, dotted_data]
  unfold substr
  simp only [Nat.add_sub_cancel_left, List.cons_append, List.nil_append, List.drop_succ_cons,
    List.drop_zero]
  have e : ∀ (A B C D P : List Char),
      A ++ '.' :: (B ++ '.' :: (C ++ '.' :: (D ++ ':' :: P))) =
        (A ++ '.' :: (B ++ '.' :: (C ++ '.' :: D))) ++ ':' :: P := by
    intro A B C D P; simp
  rw [e, List.take_left]

theorem dotted_no_nul (a b c d : Nat) : c_str (dotted a b c d).data = (dotted a b c d).data := by
  apply c_str_of_no_nul
  rw [dotted_data]
  have hd := fun n c h => isdigit_toNat_ne_zero c (toDigits_isdigit n c h)
  have h3 : ('.' : Char).toNat ≠ 0 := by decide
  simp only [List.forall_mem_append, List.forall_mem_cons]
  exact ⟨hd a, h3, hd b, h3, hd c, h3, hd d⟩

/-- `inet_aton` on the address text of a canonical configuration string. -/
theorem inet_aton_config (x y z : Char) (a b c d : Nat) (p : Int)
    (ha : a ≤ 255) (hb : b ≤ 255) (hc : c ≤ 255) (hd : d ≤ 255) :
    inet_aton (c_str (substr (config ⟨[x, y, z]⟩ a b c d p).data 6
        (6 + (dotted a b c d).data.length - 6))) =
      some (a * 2 ^ 24 + b * 2 ^ 16 + c * 2 ^ 8 + d) := by
  rw [substr_config, dotted_no_nul, dotted_data]
  exact inet_aton_dotted a b c d ha hb hc hd

/-! ## What the scanf directives consumed -/

theorem dropWhile_append_stop {α : Type} (p : α → Bool) (xs ys : List α)
    (hx : ∀ c ∈ xs, p c = true) (hy : ∀ c, ys.head? = some c → p c = false) :
    (xs ++ ys).dropWhile p = ys := by
  induction xs with
  | nil =>
    cases ys with
    | nil => rfl
    | cons y ys => simp [List.dropWhile_cons, hy y rfl]
  | cons x xs ih =>
    simp only [List.cons_append, List.dropWhile_cons, hx x (List.mem_cons_self _ _), if_true]
    exact ih (fun c hc => hx c (List.mem_cons_of_mem _ hc))

theorem takeWhile_drop_split {α : Type} (p : α → Bool) (l : List α) :
    l = l.takeWhile p ++ l.drop (l.takeWhile p).length := by
  conv_lhs => rw [← List.takeWhile_append_dropWhile p l]
  congr 1
  conv_rhs => rw [← List.takeWhile_append_dropWhile p l]
  rw [List.drop_left']
  simp

theorem head_dropWhile_stop {α : Type} (p : α → Bool) (l : List α) :
    ∀ c, (l.dropWhile p).head? = some c → p c = false := by
  intro c hc
  induction l with
  | nil => simp at hc
  | cons x xs ih =>
    rw [List.dropWhile_cons] at hc
    by_cases hx : p x = true
    · rw [if_pos hx] at hc; exact ih hc
    · rw [if_neg hx] at hc
      simp only [List.head?_cons, Option.some.injEq] at hc
      rw [← hc]; simpa using hx

/-- What `%3s` consumed when it succeeded. -/
theorem scan_s_inv (inp tok r : List Char) (h : scan_s 3 inp = some (tok, r)) :
    ∃ ws, inp = ws ++ (tok ++ r) ∧ ∀ c ∈ ws, isspace c = true := by
  unfold scan_s at h
  dsimp only at h
  by_cases hnil : inp.dropWhile isspace = []
  · rw [if_pos hnil] at h; exact absurd h (by simp)
  · rw [if_neg hnil] at h
    simp only [Option.some.injEq, Prod.mk.injEq] at h
    obtain ⟨htok, hr⟩ := h
    refine ⟨inp.takeWhile isspace, ?_, fun c hc => List.mem_takeWhile_imp hc⟩
    conv_lhs => rw [← List.takeWhile_append_dropWhile isspace inp]
    congr 1
    generalize inp.dropWhile isspace = i at htok hr
    subst htok
    have hpre : List.take 3 (i.takeWhile fun c => !isspace c) <+: i :=
      (List.take_prefix _ _).trans (List.takeWhile_prefix _)
    rw [← hr]
    exact (List.prefix_iff_eq_append.mp hpre).symm

theorem scan_lit_inv (c : Char) (inp r : List Char) (h : scan_lit c inp = some r) :
    inp = c :: r := by
  cases inp with
  | nil => simp [scan_lit] at h
  | cons x xs =>
    simp only [scan_lit] at h
    split at h
    · rename_i hx
      simp only [Option.some.injEq] at h
      rw [hx, h]
    · simp at h


theorem isspace_not_digit (c : Char) (h : isspace c = true) : isdigit c = false := by
  cases hd : isdigit c with
  | false => rfl
  | true => rw [isdigit_not_space c hd] at h; exact Bool.noConfusion h

theorem c_str_split (s : List Char) : ∃ t, s = c_str s ++ t :=
  ⟨s.dropWhile (fun c => c.toNat ≠ 0), (List.takeWhile_append_dropWhile _ s).symm⟩

theorem isspace_toNat_ne_zero (c : Char) (h : isspace c = true) : c.toNat ≠ 0 := by
  simp only [isspace, Bool.or_eq_true, decide_eq_true_eq, Bool.and_eq_true] at h
  omega

/-- `%3s` skips leading white space before the three characters it reads. -/
theorem scan_s_three_after_space (ws : List Char) (x y z : Char) (r : List Char)
    (hws : ∀ c ∈ ws, isspace c = true)
    (hx : isspace x = false) (hy : isspace y = false) (hz : isspace z = false) :
    scan_s 3 (ws ++ x :: y :: z :: r) = some ([x, y, z], r) := by
  have hd : (ws ++ x :: y :: z :: r).dropWhile isspace = x :: y :: z :: r := by
    apply dropWhile_append_stop isspace ws _ hws
    intro c hc
    simp only [List.head?_cons, Option.some.injEq] at hc
    rw [← hc]; exact hx
  unfold scan_s
  simp only [hd]
  simp [List.takeWhile_cons, hx, hy, hz]

/-- The `sscanf` call on leading white space, a three-character scheme, `://`,
four numbers separated by dots, a colon and a number. -/
theorem sscanf_output_tokens_after_space (ws : List Char) (x y z : Char)
    (A B C D P tail : List Char) (va vb vc vd vp : Int)
    (hws : ∀ c ∈ ws, isspace c = true)
    (hx : isspace x = false) (hy : isspace y = false) (hz : isspace z = false)
    (hA : ∀ rest, stops rest → scan_d (A ++ rest) = some (va, rest))
    (hB : ∀ rest, stops rest → scan_d (B ++ rest) = some (vb, rest))
    (hC : ∀ rest, stops rest → scan_d (C ++ rest) = some (vc, rest))
    (hD : ∀ rest, stops rest → scan_d (D ++ rest) = some (vd, rest))
    (hP : ∀ rest, stops rest → scan_d (P ++ rest) = some (vp, rest))
    (htail : stops tail) :
    sscanf_output (ws ++ x :: y :: z :: ':' :: '/' :: '/' ::
        (A ++ '.' :: (B ++ '.' :: (C ++ '.' :: (D ++ ':' :: (P ++ tail)))))) =
      .ok ⟨[x, y, z], ws.length + 6, va, vb, vc, vd,
        ws.length + 6 + (A ++ '.' :: (B ++ '.' :: (C ++ '.' :: D))).length, vp⟩ := by
  unfold sscanf_output
  simp only [scan_s_three_after_space ws x y z _ hws hx hy hz, scan_lit_cons,
    Option.bind_eq_bind, Option.some_bind,
    hA _ (stops_dot _), hB _ (stops_dot _), hC _ (stops_dot _), hD _ (stops_colon _), hP _ htail]
  simp only [List.length_cons, List.length_append]
  congr 1
  · congr 1 <;> omega

theorem config_no_nul_after_space (ws : List Char) (x y z : Char) (a b c d : Nat) (p : Int)
    (hws : ∀ c ∈ ws, isspace c = true)
    (hx : x.toNat ≠ 0) (hy : y.toNat ≠ 0) (hz : z.toNat ≠ 0) :
    c_str (config ⟨ws ++ [x, y, z]⟩ a b c d p).data =
      (config ⟨ws ++ [x, y, z]⟩ a b c d p).data := by
  apply c_str_of_no_nul
  rw [config_data]
  have hd := fun n c h => isdigit_toNat_ne_zero c (toDigits_isdigit n c h)
  have hp := toString_int_no_nul p
  have hw := fun c h => isspace_toNat_ne_zero c (hws c h)
  have h1 : (':' : Char).toNat ≠ 0 := by decide
  have h2 : ('/' : Char).toNat ≠ 0 := by decide
  have h3 : ('.' : Char).toNat ≠ 0 := by decide
  simp only [List.forall_mem_append, List.forall_mem_cons, List.cons_append, List.nil_append]
  exact ⟨⟨hw, hx, hy, hz, by simp⟩, h1, h2, h2, hd a, h3, hd b, h3, hd c, h3, hd d, h1, hp⟩

/-- The `sscanf` call on a configuration string whose scheme is three
characters after leading white space. -/
theorem sscanf_output_config_after_space (ws : List Char) (x y z : Char) (a b c d : Nat)
    (p : Int) (hws : ∀ c ∈ ws, isspace c = true)
    (hx : isspace x = false) (hy : isspace y = false) (hz : isspace z = false)
    (hx0 : x.toNat ≠ 0) (hy0 : y.toNat ≠ 0) (hz0 : z.toNat ≠ 0) :
    sscanf_output (c_str (config ⟨ws ++ [x, y, z]⟩ a b c d p).data) =
      .ok ⟨[x, y, z], ws.length + 6, to_int a, to_int b, to_int c, to_int d,
        ws.length + 6 + (dotted a b c d).data.length, to_int p⟩ := by
  rw [config_no_nul_after_space ws x y z a b c d p hws hx0 hy0 hz0, config_data, dotted_data]
  have h := sscanf_output_tokens_after_space ws x y z (Nat.toDigits 10 a) (Nat.toDigits 10 b)
    (Nat.toDigits 10 c) (Nat.toDigits 10 d) (toString p).data [] (to_int a) (to_int b)
    (to_int c) (to_int d) (to_int p) hws hx hy hz (scan_d_nat a) (scan_d_nat b) (scan_d_nat c)
    (scan_d_nat d) (scan_d_int p) stops_nil
  rw [List.append_nil] at h
  simp only [List.append_assoc, List.cons_append, List.nil_append]
  exact h

/-- What `%3s` stored: at most three characters, none of them white space, and
fewer than three only when white space or the end of the input follows. -/
theorem scan_s_token (inp tok r : List Char) (h : scan_s 3 inp = some (tok, r)) :
    (∀ c ∈ tok, isspace c = false) ∧ tok.length ≤ 3 ∧
      (tok.length < 3 → ∀ c, r.head? = some c → isspace c = true) := by
  unfold scan_s at h
  dsimp only at h
  by_cases hnil : inp.dropWhile isspace = []
  · rw [if_pos hnil] at h; exact absurd h (by simp)
  · rw [if_neg hnil] at h
    simp only [Option.some.injEq, Prod.mk.injEq] at h
    obtain ⟨htok, hr⟩ := h
    generalize inp.dropWhile isspace = i at htok hr
    subst htok
    refine ⟨?_, List.length_take_le _ _, ?_⟩
    · intro c hc
      have := List.mem_takeWhile_imp (List.mem_of_mem_take hc)
      simpa using this
    · intro hlt c hc
      have hT : List.take 3 (i.takeWhile fun c => !isspace c) = i.takeWhile fun c => !isspace c := by
        apply List.take_of_length_le
        rw [List.length_take] at hlt
        omega
      rw [hT] at hr
      have hsplit := List.takeWhile_append_dropWhile (fun c => !isspace c) i
      have hdrop : i.drop (i.takeWhile fun c => !isspace c).length =
          i.dropWhile fun c => !isspace c := by
        have h1 := takeWhile_drop_split (fun c => !isspace c) i
        exact List.append_cancel_left (h1.symm.trans hsplit.symm)
      rw [hdrop] at hr
      rw [← hr] at hc
      have := head_dropWhile_stop (fun c => !isspace c) i c hc
      simpa using this

/-- The scheme the `sscanf` call stored was read by `%3s` and `://` followed it. -/
theorem sscanf_output_scheme (str : List Char) (v : Scanned) (h : sscanf_output str = .ok v) :
    ∃ r, scan_s 3 str = some (v.protocol, ':' :: '/' :: '/' :: r) := by
  unfold sscanf_output at h
  split at h
  · simp at h
  rename_i protocol r0 hs
  split at h
  · simp at h
  rename_i r1 hl1
  dsimp only at h
  split at h
  · simp at h
  split at h
  · simp at h
  split at h
  · simp at h
  split at h
  · simp at h
  split at h
  · simp at h
  injection h with h
  subst h
  simp only [Option.bind_eq_bind, Option.bind_eq_some] at hl1
  obtain ⟨x2, ⟨x1, hx1, hx2⟩, hx3⟩ := hl1
  have e1 := scan_lit_inv _ _ _ hx1
  have e2 := scan_lit_inv _ _ _ hx2
  have e3 := scan_lit_inv _ _ _ hx3
  refine ⟨r1, ?_⟩
  rw [hs, e1, e2, e3]

/-- The text before the first `://` of a string that `%3s` and `://` matched
is the white space skipped and the scheme read. -/
theorem scheme_text_eq (s ws tok X Y : List Char)
    (h : s ++ (sep ++ X) = (ws ++ tok) ++ (sep ++ Y))
    (hs : ¬ sep <:+: s) (hX : X.head? ≠ some ':')
    (hws : ∀ c ∈ ws, isspace c = true) (htok : tok.length ≤ 3) : s = ws ++ tok := by
  rw [List.append_eq_append_iff] at h
  rcases h with ⟨a, ha, hb⟩ | ⟨c, hc, hd⟩
  · match a, ha, hb with
    | [], ha, _ => simpa using ha.symm
    | [a1], _, hb =>
      exfalso
      simp only [sep, List.cons_append, List.nil_append, List.cons.injEq] at hb
      exact absurd hb.2.1 (by decide)
    | [a1, a2], _, hb =>
      exfalso
      simp only [sep, List.cons_append, List.nil_append, List.cons.injEq] at hb
      exact absurd hb.2.2.1 (by decide)
    | [a1, a2, a3], _, hb =>
      exfalso
      simp only [sep, List.cons_append, List.nil_append, List.cons.injEq] at hb
      apply hX
      rw [hb.2.2.2]
      rfl
    | a1 :: a2 :: a3 :: a4 :: a', ha, hb =>
      exfalso
      simp only [sep, List.cons_append, List.cons.injEq] at hb
      have ha1 : a1 = ':' := hb.1.symm
      have hmem : a1 ∈ ws := by
        rw [List.append_eq_append_iff] at ha
        rcases ha with ⟨u, hu1, hu2⟩ | ⟨u, hu1, hu2⟩
        · have hlen := congrArg List.length hu2
          simp only [List.length_append, List.length_cons] at hlen
          omega
        · cases u with
          | nil =>
            have hlen := congrArg List.length hu2
            simp only [List.nil_append, List.length_cons] at hlen
            omega
          | cons e u =>
            simp only [List.cons_append, List.cons.injEq] at hu2
            rw [hu1, hu2.1]
            simp
      have := hws a1 hmem
      rw [ha1] at this
      exact absurd this (by decide)
  · match c, hc, hd with
    | [], hc, _ => simpa using hc
    | [c1], _, hd =>
      exfalso
      simp only [sep, List.cons_append, List.nil_append, List.cons.injEq] at hd
      exact absurd hd.2.1 (by decide)
    | [c1, c2], _, hd =>
      exfalso
      simp only [sep, List.cons_append, List.nil_append, List.cons.injEq] at hd
      exact absurd hd.2.2.1 (by decide)
    | c1 :: c2 :: c3 :: c', hc, hd =>
      exfalso
      simp only [sep, List.cons_append, List.nil_append, List.cons.injEq] at hd
      apply hs
      refine ⟨ws ++ tok, c', ?_⟩
      rw [hc, ← hd.1, ← hd.2.1, ← hd.2.2.1]
      simp [sep]

/-! ## The branches of the constructor -/

theorem NetOutput_bad_address (options : VideoOptions) (sys : Sys) (n : Int)
    (hv : sscanf_output (c_str options.output.data) = .error n) :
    NetOutput options sys = ⟨.error ("bad network address " ++ options.output), []⟩ := by
  unfold NetOutput; rw [hv]

theorem NetOutput_unrecognised (options : VideoOptions) (sys : Sys) (v : Scanned)
    (hv : sscanf_output (c_str options.output.data) = .ok v)
    (hu : v.protocol ≠ "udp".data) (ht : v.protocol ≠ "tcp".data) :
    NetOutput options sys =
      ⟨.error ("unrecognised network protocol " ++ options.output), []⟩ := by
  unfold NetOutput; rw [hv]; simp only [hu, ht, if_false]

theorem NetOutput_udp (options : VideoOptions) (sys : Sys) (v : Scanned) (addr : Nat)
    (hv : sscanf_output (c_str options.output.data) = .ok v)
    (hu : v.protocol = "udp".data)
    (ha : inet_aton (c_str (substr options.output.data v.start (v.end_ - v.start))) = some addr)
    (hfd : 0 ≤ sys.socket) :
    NetOutput options sys =
      ⟨.ok ⟨sys.socket, -1, ⟨addr, htons v.port⟩, true, sizeof_sockaddr_in⟩,
        [Call.socket SockType.SOCK_DGRAM sys.socket]⟩ := by
  have h1 : ¬ sys.socket < 0 := by omega
  unfold NetOutput; rw [hv]; simp only [hu, if_true, ha, h1, if_false]

theorem NetOutput_tcp_client (options : VideoOptions) (sys : Sys) (v : Scanned) (addr : Nat)
    (hv : sscanf_output (c_str options.output.data) = .ok v)
    (ht : v.protocol = "tcp".data) (hl : options.listen = false)
    (ha : inet_aton (c_str (substr options.output.data v.start (v.end_ - v.start))) = some addr)
    (hfd : 0 ≤ sys.socket) (hconn : 0 ≤ sys.connect) :
    NetOutput options sys =
      ⟨.ok ⟨sys.socket, -1, ⟨addr, htons v.port⟩, false, 0⟩,
        [Call.socket SockType.SOCK_STREAM sys.socket,
          Call.connect sys.socket ⟨addr, htons v.port⟩ sys.connect]⟩ := by
  have hu : v.protocol ≠ "udp".data := by rw [ht]; decide
  have h1 : ¬ sys.socket < 0 := by omega
  have h2 : ¬ sys.connect < 0 := by omega
  unfold NetOutput; rw [hv]
  simp only [hu, ht, if_true, if_false, ha, hl, Bool.false_eq_true, h1, h2]
  rfl

theorem NetOutput_tcp_server (options : VideoOptions) (sys : Sys) (v : Scanned)
    (hv : sscanf_output (c_str options.output.data) = .ok v)
    (ht : v.protocol = "tcp".data) (hl : options.listen = true)
    (hfd : 0 ≤ sys.socket) (hso : 0 ≤ sys.setsockopt) (hfc : 0 ≤ sys.fcntl)
    (hb : 0 ≤ sys.bind) :
    NetOutput options sys =
      ⟨.ok ⟨-1, sys.socket, sys.saddr_uninit, false, 0⟩,
        [Call.socket SockType.SOCK_STREAM sys.socket,
          Call.setsockopt_reuseaddr sys.socket sys.setsockopt,
          Call.fcntl_nonblock sys.socket sys.fcntl,
          Call.bind sys.socket ⟨INADDR_ANY, htons v.port⟩ sys.bind,
          Call.listen sys.socket 1]⟩ := by
  have hu : v.protocol ≠ "udp".data := by rw [ht]; decide
  have h1 : ¬ sys.socket < 0 := by omega
  have h2 : ¬ sys.setsockopt < 0 := by omega
  have h3 : ¬ sys.fcntl < 0 := by omega
  have h4 : ¬ sys.bind < 0 := by omega
  unfold NetOutput; rw [hv]
  simp only [hu, ht, if_true, if_false, hl, h1, h2, h3, h4]
  rfl

/-! ## Further facts used to read the claims -/

/-- While `listen_fd_` is non-zero the loop never throws: a failed `sendto`
only resets `fd_`. -/
theorem sendLoop_no_throw (net : Net) (M : Nat) :
    ∀ (fuel : Nat) (s : Sink) (off size k : Nat) (r : Run), s.listen_fd_ ≠ 0 →
      sendLoop net M fuel s off size k = some r →
      r.thrown = none ∧ r.sink.listen_fd_ = s.listen_fd_ := by
  intro fuel
  induction fuel with
  | zero =>
    intro s off size k r _ h
    by_cases hs : size = 0
    · subst hs; rw [sendLoop_zero] at h; injection h with h; subst h; exact ⟨rfl, rfl⟩
    · rw [sendLoop] at h; simp [hs] at h
  | succ fuel ih =>
    intro s off size k r hl h
    by_cases hs : size = 0
    · subst hs; rw [sendLoop_zero] at h; injection h with h; subst h; exact ⟨rfl, rfl⟩
    · by_cases hret : sendto_ret net s.fd_ k < 0
      · rw [sendLoop_succ_fail net M fuel s off size k hs hret hl] at h
        simp only [Option.map_eq_some'] at h
        obtain ⟨r', hr', rfl⟩ := h
        exact ih { s with fd_ := -1 } _ _ _ r' hl hr'
      · rw [sendLoop_succ_ok net M fuel s off size k hs hret] at h
        simp only [Option.map_eq_some'] at h
        obtain ⟨r', hr', rfl⟩ := h
        exact ih s _ _ _ r' hl hr'

/-- A sink without a listening handle (`listen_fd_ < 0`: UDP and TCP client)
never throws from `outputBuffer`, whatever the `sendto` calls return. -/
theorem outputBuffer_no_throw_without_listener (net : Net) (s : Sink) (size : Nat)
    (hl : s.listen_fd_ < 0) :
    ∃ r, outputBuffer net s size = some r ∧ r.thrown = none := by
  have hsome := outputBuffer_isSome net s size
  obtain ⟨r, hr⟩ := Option.isSome_iff_exists.mp hsome
  refine ⟨r, hr, ?_⟩
  unfold outputBuffer at hr
  rw [if_neg (by omega)] at hr
  unfold sendAll at hr
  exact (sendLoop_no_throw net _ _ s _ _ _ r (by omega) hr).1

/-- A listening server with a positive listening handle and no client waiting:
`outputBuffer` returns normally, the only `sendto` (if the payload is not
empty) is issued on the invalid handle and fails, and the server keeps
listening on the same handle. -/
theorem outputBuffer_listening_no_client (net : Net) (s : Sink) (size : Nat)
    (hserver : s.saddr_ptr_ = false) (hl : 0 < s.listen_fd_) (hfd : s.fd_ < 0)
    (hacc : net.accept < 0) :
    ∃ r, outputBuffer net s size = some r ∧ r.thrown = none ∧
      r.sink.listen_fd_ = s.listen_fd_ ∧ r.sink.fd_ < 0 ∧
      ∀ c ∈ r.calls, c = Call.accept s.listen_fd_ net.accept ∨
        c = Call.sendto s.fd_ 0 size none s.sockaddr_in_size_ (-1) := by
  unfold outputBuffer
  rw [if_pos ⟨by omega, hfd⟩]
  simp only []
  rw [if_neg (by omega)]
  obtain ⟨r, hr, hlf, hzero, hpos⟩ := sendAll_stream net s size hserver
  rw [hr]
  have hret := sendto_ret_of_neg net s.fd_ 0 hfd
  refine ⟨_, rfl, ?_, hlf, ?_, ?_⟩
  · by_cases h0 : size = 0
    · rw [hzero h0]; rfl
    · exact (hpos (by omega)).2.1.mpr (fun _ => by omega)
  · by_cases h0 : size = 0
    · rw [hzero h0]; exact hfd
    · rw [Run.after, (hpos (by omega)).2.2, hret]
      simp only [Int.reduceNeg, Int.reduceLT, ne_eq, true_and]
      rw [if_pos (by omega)]
      show (-1 : Int) < 0
      decide
  · intro c hc
    simp only [Run.after, List.singleton_append, List.mem_cons] at hc
    rcases hc with hc | hc
    · left; exact hc
    · right
      by_cases h0 : size = 0
      · rw [hzero h0] at hc; simp at hc
      · rw [(hpos (by omega)).1, hret] at hc
        simpa using hc

/-- A UDP sink whose only send fails: over the whole life of the object the
socket handle 3 is obtained and, `fd_` having been reset to `-1`, never
closed. -/
theorem udp_handle_leaks_after_failed_send :
    lifetime ⟨"udp://127.0.0.1:5000", false⟩ ⟨3, 0, 0, 0, 0, ⟨0, 0⟩⟩
        [(⟨-1, ⟨0, 0⟩, 0, fun _ => -1⟩, 10)] =
      some [Call.socket SockType.SOCK_DGRAM 3,
        Call.sendto 3 0 10 (some ⟨2130706433, 5000⟩) 16 (-1)] :=
  by rfl

/-- A sink whose sends all succeed is closed properly: the handle obtained is
closed once by the destructor. -/
theorem udp_handle_closed_after_successful_sends :
    lifetime ⟨"udp://127.0.0.1:5000", false⟩ ⟨3, 0, 0, 0, 0, ⟨0, 0⟩⟩
        [(⟨-1, ⟨0, 0⟩, 0, fun _ => 10⟩, 10), (⟨-1, ⟨0, 0⟩, 0, fun _ => 10⟩, 10)] =
      some [Call.socket SockType.SOCK_DGRAM 3,
        Call.sendto 3 0 10 (some ⟨2130706433, 5000⟩) 16 10,
        Call.sendto 3 0 10 (some ⟨2130706433, 5000⟩) 16 10,
        Call.close 3] :=
  by rfl

/-- Every other scheme is a bad address: a scheme (a text without `://`) that
is not three characters, none of them white space or NUL, after optional
leading white space, makes `sscanf` stop early, and construction fails with
the bad-address error before the protocol is looked at. -/
theorem other_schemes_bad_address (s : String) (a b c d : Nat) (p : Int) (listen : Bool)
    (sys : Sys) (hsep : ¬ sep <:+: s.data)
    (hnot : ¬ ∃ ws x y z, s.data = ws ++ [x, y, z] ∧ (∀ c ∈ ws, isspace c = true) ∧
      isspace x = false ∧ isspace y = false ∧ isspace z = false ∧
      x.toNat ≠ 0 ∧ y.toNat ≠ 0 ∧ z.toNat ≠ 0) :
    NetOutput ⟨config s a b c d p, listen⟩ sys =
      ⟨.error ("bad network address " ++ config s a b c d p), []⟩ := by
  cases hv : sscanf_output (c_str (config s a b c d p).data) with
  | error n => exact NetOutput_bad_address ⟨config s a b c d p, listen⟩ sys n hv
  | ok v =>
    exfalso
    apply hnot
    obtain ⟨r0, hs0⟩ := sscanf_output_scheme _ v hv
    obtain ⟨ws, hstr, hws⟩ := scan_s_inv _ _ _ hs0
    obtain ⟨hns, hlen, hshort⟩ := scan_s_token _ _ _ hs0
    obtain ⟨t, ht⟩ := c_str_split (config s a b c d p).data
    have hnul : ∀ ch ∈ v.protocol, ch.toNat ≠ 0 := by
      intro ch hch
      have hmem : ch ∈ c_str (config s a b c d p).data := by
        rw [hstr]; simp [hch]
      have := List.mem_takeWhile_imp hmem
      simpa using this
    rw [hstr, config_data] at ht
    obtain ⟨d0, ds, hd0⟩ := List.exists_cons_of_ne_nil (toDigits_ne_nil a)
    have hd0dig : isdigit d0 = true :=
      toDigits_isdigit a d0 (by rw [hd0]; exact List.mem_cons_self _ _)
    have heq : s.data ++ (sep ++ (Nat.toDigits 10 a ++ '.' :: (Nat.toDigits 10 b ++ '.' ::
          (Nat.toDigits 10 c ++ '.' :: (Nat.toDigits 10 d ++ ':' :: (toString p).data))))) =
        (ws ++ v.protocol) ++ (sep ++ (r0 ++ t)) := by
      simpa [sep] using ht
    have hX : (Nat.toDigits 10 a ++ '.' :: (Nat.toDigits 10 b ++ '.' ::
          (Nat.toDigits 10 c ++ '.' :: (Nat.toDigits 10 d ++ ':' :: (toString p).data)))).head?
        ≠ some ':' := by
      rw [hd0]
      simp only [List.cons_append, List.head?_cons, ne_eq, Option.some.injEq]
      exact isdigit_ne d0 ':' hd0dig (by decide)
    have hs := scheme_text_eq s.data ws v.protocol _ _ heq hsep hX hws hlen
    have h3 : v.protocol.length = 3 := by
      by_contra hne
      have := hshort (by omega) ':' rfl
      exact absurd this (by decide)
    match hp : v.protocol, h3 with
    | [x, y, z], _ =>
      rw [hp] at hs hns hnul
      exact ⟨ws, x, y, z, hs, hws, hns x (by simp), hns y (by simp), hns z (by simp),
        hnul x (by simp), hnul y (by simp), hnul z (by simp)⟩

/-- The configuration strings `config` builds, on examples. -/
theorem config_example :
    config "udp" 127 0 0 1 5000 = "udp://127.0.0.1:5000" ∧
    config "tcp" 10 0 0 1 (-1) = "tcp://10.0.0.1:-1" ∧
    dotted 127 0 0 1 = "127.0.0.1" :=
  ⟨by decide, by decide, by decide⟩


theorem htons_of_range (p : Nat) (h : p ≤ 65535) : htons (p : Int) = p := by
  unfold htons
  omega


/-! ## Claims about outputBuffer -/

/-- C1. In UDP mode (a sink the constructor built with `saddr_ptr_` set), when
every `sendto` succeeds, one `outputBuffer` call on a payload of `S` bytes
returns normally and issues exactly `ceil(S / 65507)` `sendto` calls (none for
`S = 0`, one for `1 ≤ S ≤ 65507`).  The `i`-th call carries the slice of the
buffer that starts at `i * 65507` and has `min 65507 (S - i * 65507)` bytes,
between 1 and 65507, and is addressed to the `saddr_` the constructor derived
from the configuration (address from `inet_aton`, port from `htons`).  The
lengths sum to `S` and the slices concatenated are the payload. -/
theorem C1_udp_chunking (options : VideoOptions) (sys : Sys) (s : Sink) (net : Net)
    (S : Nat)
    (hbuilt : (NetOutput options sys).result = .ok s) (hudp : s.saddr_ptr_ = true)
    (hok : ∀ k, 0 ≤ net.sendto k) :
    ∃ calls, outputBuffer net s S = some ⟨s, calls, none⟩ ∧
      calls.length = (S + 65506) / 65507 ∧
      (S = 0 → calls = []) ∧
      (1 ≤ S → S ≤ 65507 → calls.length = 1) ∧
      (∀ i c, calls[i]? = some c →
        c = Call.sendto s.fd_ (i * 65507) (min 65507 (S - i * 65507))
              (some s.saddr_) s.sockaddr_in_size_ (net.sendto i) ∧
        1 ≤ min 65507 (S - i * 65507) ∧
        min 65507 (S - i * 65507) ≤ 65507) ∧
      (calls.map Call.len).sum = S ∧
      (∀ mem : List Nat, mem.length = S → (calls.map (Call.payload mem)).flatten = mem) ∧
      (∃ v addr, sscanf_output (c_str options.output.data) = .ok v ∧
        inet_aton (c_str (substr options.output.data v.start (v.end_ - v.start))) = some addr ∧
        s.saddr_ = ⟨addr, htons v.port⟩) := by
  obtain ⟨v, addr, hv, _, ha, hfd, hs⟩ := NetOutput_udp_inv options sys s hbuilt hudp
  have hfd' : 0 ≤ s.fd_ := by rw [hs]; exact hfd
  have hl : s.listen_fd_ = -1 := by rw [hs]
  obtain ⟨calls, hrun, hlen, hidx, hsum, hjoin⟩ :=
    sendLoop_udp net s hfd' hok S 0 S 0 (le_refl _)
  refine ⟨calls, ?_, hlen, ?_, ?_, ?_, hsum, ?_, ⟨v, addr, hv, ha, by rw [hs]⟩⟩
  · unfold outputBuffer
    rw [if_neg (by rw [hl]; omega)]
    unfold sendAll
    simp only [hudp, if_true, MAX_UDP_SIZE]
    exact hrun
  · intro h0
    apply List.eq_nil_of_length_eq_zero
    rw [hlen, h0]
  · intro h1 h2
    rw [hlen]; omega
  · intro i c hc
    obtain ⟨h1, h2⟩ := hidx i c hc
    refine ⟨?_, by omega, by omega⟩
    rw [h2]; simp [hudp]
  · intro mem hmem
    rw [hjoin mem, ← hmem]; simp

/-- C1, witnessed on the sink built from `udp://127.0.0.1:5000` and a payload
of 150000 bytes: three datagrams. -/
theorem C1_udp_chunking_witness :
    ∃ calls, outputBuffer ⟨-1, ⟨0, 0⟩, 0, fun _ => 10⟩
        ⟨3, -1, ⟨2130706433, 5000⟩, true, 16⟩ 150000 =
          some ⟨⟨3, -1, ⟨2130706433, 5000⟩, true, 16⟩, calls, none⟩ ∧
      calls.length = 3 ∧ (calls.map Call.len).sum = 150000 :=
  have h := C1_udp_chunking ⟨"udp://127.0.0.1:5000", false⟩ ⟨3, 0, 0, 0, 0, ⟨0, 0⟩⟩
    ⟨3, -1, ⟨2130706433, 5000⟩, true, 16⟩ ⟨-1, ⟨0, 0⟩, 0, fun _ => 10⟩
    150000 (by rfl) (by rfl) (by intro k; show (0 : Int) ≤ 10; decide)
  h.elim fun calls hc => ⟨calls, hc.1, hc.2.1, hc.2.2.2.2.2.1⟩

/-- C9. On a stream transport (`saddr_ptr_` is `NULL`, as the `tcp` branch
leaves it) with a data handle (`fd_ ≥ 0`: a TCP client, or a TCP server with a
client attached), `outputBuffer` on a payload of `S > 0` bytes issues exactly
one `sendto`, on `fd_`, carrying the whole buffer (offset 0, length `S`,
whatever `S` is) with no destination address; for `S = 0` it issues no call at
all. -/
theorem C9_stream_single_send (net : Net) (s : Sink) (S : Nat)
    (hstream : s.saddr_ptr_ = false) (hfd : 0 ≤ s.fd_) :
    ∃ r, outputBuffer net s S = some r ∧
      (0 < S →
        r.calls = [Call.sendto s.fd_ 0 S none s.sockaddr_in_size_ (net.sendto 0)] ∧
        ∀ mem : List Nat, mem.length = S → r.calls.map (Call.payload mem) = [mem]) ∧
      (S = 0 → r.calls = []) := by
  unfold outputBuffer
  rw [if_neg (by omega)]
  obtain ⟨r, hr, _, hzero, hpos⟩ := sendAll_stream net s S hstream
  refine ⟨r, hr, ?_, ?_⟩
  · intro h
    rw [(hpos h).1, sendto_ret_of_nonneg net s.fd_ 0 hfd]
    refine ⟨rfl, ?_⟩
    intro mem hmem
    simp [Call.payload, ← hmem]
  · intro h
    rw [hzero h]

/-- C9, witnessed on a TCP client sink with handle 3 and a payload of 70000
bytes, more than a datagram holds. -/
theorem C9_stream_single_send_witness :
    ∃ r, outputBuffer ⟨-1, ⟨0, 0⟩, 0, fun _ => 70000⟩
        ⟨3, -1, ⟨2130706433, 5000⟩, false, 0⟩ 70000 = some r ∧
      r.calls = [Call.sendto 3 0 70000 none 0 70000] :=
  have h := C9_stream_single_send ⟨-1, ⟨0, 0⟩, 0, fun _ => 70000⟩
    ⟨3, -1, ⟨2130706433, 5000⟩, false, 0⟩ 70000 (by rfl) (by decide)
  h.elim fun r hr => ⟨r, hr.1, (hr.2.1 (by decide)).1⟩

/-- C3 (amended). For a TCP-server sink in the Connected state whose
listening handle is positive (`listen_fd_ > 0`, `fd_ ≥ 0`), if the `sendto` of
a non-empty payload fails, the call returns normally, `fd_` becomes `-1` (the
sink is back in Listening) and `listen_fd_` is unchanged.  Whatever the next
call is, it starts with an `accept` on the listening handle.  If that `accept`
yields a client and `setsockopt(TCP_NODELAY)` on it succeeds, the call does
not throw and the whole payload is passed to one `sendto` on the new handle
(no `sendto` for an empty payload); if that `setsockopt` fails, the call throws
"failed to setsockopt client socket" and issues no `sendto`. -/
theorem C3_server_disconnect_recovery (net : Net) (s : Sink) (size : Nat)
    (hserver : s.saddr_ptr_ = false) (hlisten : 0 < s.listen_fd_) (hfd : 0 ≤ s.fd_)
    (hsize : 0 < size) (hfail : net.sendto 0 < 0) :
    outputBuffer net s size =
        some ⟨{ s with fd_ := -1 },
          [Call.sendto s.fd_ 0 size none s.sockaddr_in_size_ (net.sendto 0)], none⟩ ∧
    ∀ (net2 : Net) (size2 : Nat),
      ∃ r2, outputBuffer net2 { s with fd_ := -1 } size2 = some r2 ∧
        r2.calls.head? = some (Call.accept s.listen_fd_ net2.accept) ∧
        r2.sink.listen_fd_ = s.listen_fd_ ∧
        (0 ≤ net2.accept → 0 ≤ net2.setsockopt →
          r2.thrown = none ∧
          (0 < size2 → r2.calls = [Call.accept s.listen_fd_ net2.accept,
            Call.setsockopt_nodelay net2.accept net2.setsockopt,
            Call.sendto net2.accept 0 size2 none sizeof_sockaddr_in (net2.sendto 0)]) ∧
          (size2 = 0 → r2.calls = [Call.accept s.listen_fd_ net2.accept,
            Call.setsockopt_nodelay net2.accept net2.setsockopt])) ∧
        (0 ≤ net2.accept → net2.setsockopt < 0 →
          r2.thrown = some "failed to setsockopt client socket" ∧
          r2.calls = [Call.accept s.listen_fd_ net2.accept,
            Call.setsockopt_nodelay net2.accept net2.setsockopt]) := by
  have hl : s.listen_fd_ ≠ 0 := by omega
  constructor
  · unfold outputBuffer
    rw [if_neg (by omega)]
    obtain ⟨r, hr, _, _, hpos⟩ := sendAll_stream net s size hserver
    obtain ⟨hcalls, hthrown, hsink⟩ := hpos hsize
    rw [hr]
    have hret : sendto_ret net s.fd_ 0 < 0 := by
      rw [sendto_ret_of_nonneg net s.fd_ 0 hfd]; exact hfail
    rw [if_pos ⟨hret, hl⟩] at hsink
    have ht : r.thrown = none := hthrown.mpr (fun _ => hl)
    rw [sendto_ret_of_nonneg net s.fd_ 0 hfd] at hcalls
    cases r
    simp only at hcalls ht hsink
    simp [hcalls, ht, hsink]
  · intro net2 size2
    unfold outputBuffer
    simp only []
    rw [if_pos ⟨by omega, by omega⟩]
    by_cases hacc : 0 ≤ net2.accept
    · rw [if_pos hacc]
      by_cases hso : net2.setsockopt < 0
      · rw [if_pos hso]
        exact ⟨_, rfl, rfl, rfl, fun _ h => absurd hso (by omega), fun _ _ => ⟨rfl, rfl⟩⟩
      · rw [if_neg hso]
        obtain ⟨r, hr, hlf, hzero, hpos⟩ := sendAll_stream net2
          { s with
            fd_ := net2.accept
            saddr_ := if sizeof_sockaddr_in ≤ s.sockaddr_in_size_ then net2.accept_peer else s.saddr_
            sockaddr_in_size_ := sizeof_sockaddr_in } size2 hserver
        rw [hr]
        refine ⟨_, rfl, rfl, hlf, ?_, fun _ h => absurd h hso⟩
        intro _ _
        refine ⟨?_, ?_, ?_⟩
        · by_cases h0 : size2 = 0
          · rw [hzero h0]; rfl
          · exact (hpos (by omega)).2.1.mpr (fun _ => hl)
        · intro hs2
          obtain ⟨hcalls, _, _⟩ := hpos hs2
          simp only [Option.map_some', Run.after] at *
          rw [hcalls, sendto_ret_of_nonneg net2 _ 0 hacc]
          rfl
        · intro h0
          rw [hzero h0]; rfl
    · rw [if_neg hacc]
      obtain ⟨r, hr, hlf, _, _⟩ := sendAll_stream net2 { s with fd_ := -1 } size2 hserver
      rw [hr]
      exact ⟨_, rfl, rfl, hlf, fun h => absurd h hacc, fun h => absurd h hacc⟩

/-- C3 (amended), witnessed on a server listening on handle 3 whose client on
handle 4 is gone: the failed send resets `fd_`; the next call accepts client 5
and sends it the whole ten-byte payload, or throws when `TCP_NODELAY` cannot
be set on it. -/
theorem C3_server_disconnect_recovery_witness :
    outputBuffer ⟨-1, ⟨0, 0⟩, 0, fun _ => -1⟩ ⟨4, 3, ⟨0, 0⟩, false, 16⟩ 10 =
      some ⟨⟨-1, 3, ⟨0, 0⟩, false, 16⟩, [Call.sendto 4 0 10 none 16 (-1)], none⟩ ∧
    (∃ r2, outputBuffer ⟨5, ⟨167772161, 40000⟩, 0, fun _ => 10⟩
        ⟨-1, 3, ⟨0, 0⟩, false, 16⟩ 10 = some r2 ∧
      r2.thrown = none ∧
      r2.calls = [Call.accept 3 5, Call.setsockopt_nodelay 5 0,
        Call.sendto 5 0 10 none 16 10]) ∧
    (∃ r2, outputBuffer ⟨5, ⟨167772161, 40000⟩, -1, fun _ => 10⟩
        ⟨-1, 3, ⟨0, 0⟩, false, 16⟩ 10 = some r2 ∧
      r2.thrown = some "failed to setsockopt client socket" ∧
      r2.calls = [Call.accept 3 5, Call.setsockopt_nodelay 5 (-1)]) :=
  have h := C3_server_disconnect_recovery ⟨-1, ⟨0, 0⟩, 0, fun _ => -1⟩
    ⟨4, 3, ⟨0, 0⟩, false, 16⟩ 10 (by rfl) (by decide) (by decide) (by decide) (by decide)
  ⟨h.1,
   (h.2 ⟨5, ⟨167772161, 40000⟩, 0, fun _ => 10⟩ 10).elim fun r2 hr2 =>
    ⟨r2, hr2.1, (hr2.2.2.2.1 (by decide) (by decide)).1,
      (hr2.2.2.2.1 (by decide) (by decide)).2.1 (by decide)⟩,
   (h.2 ⟨5, ⟨167772161, 40000⟩, -1, fun _ => 10⟩ 10).elim fun r2 hr2 =>
    ⟨r2, hr2.1, hr2.2.2.2.2 (by decide) (by decide)⟩⟩

/-- C3 as stated fails: a Connected server (listening on 3, client 4) loses its
client on a failed send and is back in Listening; on the next call `accept`
yields client 5, but `setsockopt(TCP_NODELAY)` fails on it, so the call throws
and no byte of the payload is sent to the new client. -/
theorem C3_counterexample :
    outputBuffer ⟨-1, ⟨0, 0⟩, 0, fun _ => -1⟩ ⟨4, 3, ⟨0, 0⟩, false, 16⟩ 10 =
        some ⟨⟨-1, 3, ⟨0, 0⟩, false, 16⟩, [Call.sendto 4 0 10 none 16 (-1)], none⟩ ∧
    outputBuffer ⟨5, ⟨167772161, 40000⟩, -1, fun _ => 10⟩ ⟨-1, 3, ⟨0, 0⟩, false, 16⟩ 10 =
        some ⟨⟨5, 3, ⟨167772161, 40000⟩, false, 16⟩,
          [Call.accept 3 5, Call.setsockopt_nodelay 5 (-1)],
          some "failed to setsockopt client socket"⟩ :=
  ⟨by decide, by decide⟩

/-- C2 at the failing input. The sinks built from `udp://127.0.0.1:5000` and,
as a client, from `tcp://127.0.0.1:5000` have `listen_fd_ = -1`.  When the
`sendto` of a ten-byte payload fails, the test `if (listen_fd_)` is true for
`-1`: `fd_` is set to `-1`, nothing is thrown and the call returns normally. -/
theorem C2_send_failure_is_swallowed :
    (NetOutput ⟨"udp://127.0.0.1:5000", false⟩ ⟨3, 0, 0, 0, 0, ⟨0, 0⟩⟩).result =
        .ok ⟨3, -1, ⟨2130706433, 5000⟩, true, 16⟩ ∧
    outputBuffer ⟨-1, ⟨0, 0⟩, 0, fun _ => -1⟩ ⟨3, -1, ⟨2130706433, 5000⟩, true, 16⟩ 10 =
        some ⟨⟨-1, -1, ⟨2130706433, 5000⟩, true, 16⟩,
          [Call.sendto 3 0 10 (some ⟨2130706433, 5000⟩) 16 (-1)], none⟩ ∧
    (NetOutput ⟨"tcp://127.0.0.1:5000", false⟩ ⟨3, 0, 0, 0, 0, ⟨0, 0⟩⟩).result =
        .ok ⟨3, -1, ⟨2130706433, 5000⟩, false, 0⟩ ∧
    outputBuffer ⟨-1, ⟨0, 0⟩, 0, fun _ => -1⟩ ⟨3, -1, ⟨2130706433, 5000⟩, false, 0⟩ 10 =
        some ⟨⟨-1, -1, ⟨2130706433, 5000⟩, false, 0⟩,
          [Call.sendto 3 0 10 none 0 (-1)], none⟩ :=
  ⟨by rfl, by decide, by rfl, by decide⟩

/-- C4 at the failing input. A server built from `tcp://127.0.0.1:5000` whose
`socket()` returned descriptor 0 is in Listening with `listen_fd_ = 0`.  With
no client waiting, `outputBuffer` on ten bytes still enters the loop, `sendto`
on `fd_ = -1` fails, the test `if (listen_fd_)` is false for `0`, and the call
throws "failed to send data on socket". -/
theorem C4_listening_on_descriptor_zero_throws :
    (NetOutput ⟨"tcp://127.0.0.1:5000", true⟩ ⟨0, 0, 0, 0, 0, ⟨0, 0⟩⟩).result =
        .ok ⟨-1, 0, ⟨0, 0⟩, false, 0⟩ ∧
    outputBuffer ⟨-1, ⟨0, 0⟩, 0, fun _ => 10⟩ ⟨-1, 0, ⟨0, 0⟩, false, 0⟩ 10 =
        some ⟨⟨-1, 0, ⟨0, 0⟩, false, 0⟩,
          [Call.accept 0 (-1), Call.sendto (-1) 0 10 none 0 (-1)],
          some "failed to send data on socket"⟩ :=
  ⟨by rfl, by decide⟩

/-- C5 at the failing input. A server built from `tcp://127.0.0.1:5000`
(listening handle 3) accepts a client (handle 4) in its first `outputBuffer`
call, the send to it fails and `fd_` is reset to `-1` without a `close`.  Over
the whole life of the object the handles obtained are 3 and 4 and the only
handle closed is 3: handle 4 is never closed. -/
theorem C5_accepted_handle_is_never_closed :
    lifetime ⟨"tcp://127.0.0.1:5000", true⟩ ⟨3, 0, 0, 0, 0, ⟨0, 0⟩⟩
        [(⟨4, ⟨167772161, 40000⟩, 0, fun _ => -1⟩, 10)] =
      some [Call.socket SockType.SOCK_STREAM 3, Call.setsockopt_reuseaddr 3 0,
        Call.fcntl_nonblock 3 0, Call.bind 3 ⟨0, 5000⟩ 0, Call.listen 3 1,
        Call.accept 3 4, Call.setsockopt_nodelay 4 0, Call.sendto 4 0 10 none 16 (-1),
        Call.close 3] ∧
    (lifetime ⟨"tcp://127.0.0.1:5000", true⟩ ⟨3, 0, 0, 0, 0, ⟨0, 0⟩⟩
        [(⟨4, ⟨167772161, 40000⟩, 0, fun _ => -1⟩, 10)]).map (List.filterMap Call.obtained) =
      some [3, 4] ∧
    (lifetime ⟨"tcp://127.0.0.1:5000", true⟩ ⟨3, 0, 0, 0, 0, ⟨0, 0⟩⟩
        [(⟨4, ⟨167772161, 40000⟩, 0, fun _ => -1⟩, 10)]).map (List.filterMap Call.closed) =
      some [3] :=
  ⟨by rfl, by rfl, by rfl⟩

/-! ## Claims about the constructor -/

/-- C7. For scheme `udp` or `tcp`, octets `a b c d` in 0..255 and a port `p` in
0..65535, the `sscanf` call on `scheme://a.b.c.d:p` (numbers in decimal)
converts all six fields: `protocol` is the scheme, `start` is the length of the
scheme plus 3, `a`, `b`, `c`, `d` and `port` are the numbers, and `end` is the
index of the colon before the port, which is the final colon of the string.
The address substring `substr(start, end - start)` is exactly the text
`a.b.c.d`, `inet_aton` turns it into the address `a.b.c.d` and `htons` keeps
the port `p`: the sink built for `udp`, and for `tcp` as a client, has
`saddr_` equal to address `a.b.c.d`, port `p`. -/
theorem C7_parse_canonical (scheme : String) (a b c d p : Nat)
    (hs : scheme = "udp" ∨ scheme = "tcp")
    (ha : a ≤ 255) (hb : b ≤ 255) (hc : c ≤ 255) (hd : d ≤ 255) (hp : p ≤ 65535) :
    sscanf_output (c_str (config scheme a b c d p).data) =
        .ok ⟨scheme.data, scheme.length + 3, a, b, c, d,
          scheme.length + 3 + (dotted a b c d).length, p⟩ ∧
    substr (config scheme a b c d p).data (scheme.length + 3)
        (scheme.length + 3 + (dotted a b c d).length - (scheme.length + 3)) =
      (dotted a b c d).data ∧
    (config scheme a b c d p).data.drop (scheme.length + 3 + (dotted a b c d).length) =
      ':' :: (toString p).data ∧
    ':' ∉ (toString p).data ∧
    inet_aton (c_str (dotted a b c d).data) = some (a * 2 ^ 24 + b * 2 ^ 16 + c * 2 ^ 8 + d) ∧
    htons (p : Int) = p ∧
    (∀ (listen : Bool) (sys : Sys), 0 ≤ sys.socket →
      (NetOutput ⟨config "udp" a b c d p, listen⟩ sys).result =
        .ok ⟨sys.socket, -1, ⟨a * 2 ^ 24 + b * 2 ^ 16 + c * 2 ^ 8 + d, p⟩, true,
          sizeof_sockaddr_in⟩) ∧
    (∀ (sys : Sys), 0 ≤ sys.socket → 0 ≤ sys.connect →
      (NetOutput ⟨config "tcp" a b c d p, false⟩ sys).result =
        .ok ⟨sys.socket, -1, ⟨a * 2 ^ 24 + b * 2 ^ 16 + c * 2 ^ 8 + d, p⟩, false, 0⟩) := by
  have hr : ∀ n : Nat, n ≤ 65535 → to_int (n : Int) = n := fun n hn =>
    to_int_of_range n (by omega) (by omega)
  have hscan : ∀ x y z : Char, isspace x = false → isspace y = false → isspace z = false →
      x.toNat ≠ 0 → y.toNat ≠ 0 → z.toNat ≠ 0 →
      sscanf_output (c_str (config ⟨[x, y, z]⟩ a b c d p).data) =
        .ok ⟨[x, y, z], 6, a, b, c, d, 6 + (dotted a b c d).data.length, p⟩ := by
    intro x y z h1 h2 h3 h4 h5 h6
    rw [sscanf_output_config x y z a b c d p h1 h2 h3 h4 h5 h6, hr a (by omega), hr b (by omega),
      hr c (by omega), hr d (by omega), hr p hp]
  have hudp := hscan 'u' 'd' 'p' (by decide) (by decide) (by decide) (by decide) (by decide)
    (by decide)
  have htcp := hscan 't' 'c' 'p' (by decide) (by decide) (by decide) (by decide) (by decide)
    (by decide)
  have hdrop : ∀ x y z : Char,
      (config ⟨[x, y, z]⟩ a b c d p).data.drop (6 + (dotted a b c d).data.length) =
        ':' :: (toString (p : Int)).data := by
    intro x y z
    rw [config_data, dotted_data]
    have e : ∀ (A B C D P : List Char),
        [x, y, z] ++ ':' :: '/' :: '/' :: (A ++ '.' :: (B ++ '.' :: (C ++ '.' :: (D ++ ':' :: P)))) =
          (x :: y :: z :: ':' :: '/' :: '/' :: (A ++ '.' :: (B ++ '.' :: (C ++ '.' :: D)))) ++
            ':' :: P := by
      intro A B C D P; simp
    rw [e, List.drop_left']
    simp only [List.length_cons]; omega
  have hinet := inet_aton_dotted a b c d ha hb hc hd
  rw [← dotted_data, ← dotted_no_nul] at hinet
  refine ⟨?_, ?_, ?_, toString_int_no_colon p, hinet, htons_of_range p hp, ?_, ?_⟩
  · rcases hs with rfl | rfl
    · exact hudp
    · exact htcp
  · rcases hs with rfl | rfl
    · exact substr_config 'u' 'd' 'p' a b c d p
    · exact substr_config 't' 'c' 'p' a b c d p
  · rcases hs with rfl | rfl
    · exact hdrop 'u' 'd' 'p'
    · exact hdrop 't' 'c' 'p'
  · intro listen sys hfd
    rw [NetOutput_udp ⟨config "udp" a b c d p, listen⟩ sys _ _ hudp rfl
      (inet_aton_config 'u' 'd' 'p' a b c d p ha hb hc hd) hfd]
    simp only [htons_of_range p hp]
  · intro sys hfd hconn
    rw [NetOutput_tcp_client ⟨config "tcp" a b c d p, false⟩ sys _ _ htcp rfl rfl
      (inet_aton_config 't' 'c' 'p' a b c d p ha hb hc hd) hfd hconn]
    simp only [htons_of_range p hp]

/-- C7, witnessed on `udp://127.0.0.1:5000`: `start = 6`, `end = 15`, the
address is 127.0.0.1 (2130706433) and the port 5000. -/
theorem C7_parse_canonical_witness :
    sscanf_output (c_str (config "udp" 127 0 0 1 5000).data) =
        .ok ⟨"udp".data, 6, 127, 0, 0, 1, 15, 5000⟩ ∧
    substr (config "udp" 127 0 0 1 5000).data 6 (15 - 6) = "127.0.0.1".data ∧
    inet_aton (c_str (dotted 127 0 0 1).data) = some 2130706433 ∧
    (NetOutput ⟨config "udp" 127 0 0 1 5000, false⟩ ⟨3, 0, 0, 0, 0, ⟨0, 0⟩⟩).result =
        .ok ⟨3, -1, ⟨2130706433, 5000⟩, true, 16⟩ :=
  have h := C7_parse_canonical "udp" 127 0 0 1 5000 (Or.inl rfl) (by decide) (by decide)
    (by decide) (by decide) (by decide)
  ⟨h.1, h.2.1, h.2.2.2.2.1, h.2.2.2.2.2.2.1 false ⟨3, 0, 0, 0, 0, ⟨0, 0⟩⟩ (by decide)⟩

/-- C8 (amended). For every configuration string whose scheme (the text before
`://`) is optional leading white space followed by exactly three characters,
none of them white space or NUL, that are neither `udp` nor `tcp`, followed by
`://a.b.c.d:port` with decimal numbers, and for either value of the listen
flag, construction fails with "unrecognised network protocol " followed by the
configuration string, not with the bad-address error, and issues no system
call. -/
theorem C8_three_char_scheme_unrecognised (ws : List Char) (x y z : Char) (a b c d : Nat)
    (p : Int) (listen : Bool) (sys : Sys)
    (hws : ∀ c ∈ ws, isspace c = true)
    (hx : isspace x = false) (hy : isspace y = false) (hz : isspace z = false)
    (hx0 : x.toNat ≠ 0) (hy0 : y.toNat ≠ 0) (hz0 : z.toNat ≠ 0)
    (hudp : [x, y, z] ≠ "udp".data) (htcp : [x, y, z] ≠ "tcp".data) :
    NetOutput ⟨config ⟨ws ++ [x, y, z]⟩ a b c d p, listen⟩ sys =
        ⟨.error ("unrecognised network protocol " ++ config ⟨ws ++ [x, y, z]⟩ a b c d p), []⟩ ∧
    (NetOutput ⟨config ⟨ws ++ [x, y, z]⟩ a b c d p, listen⟩ sys).result ≠
        .error ("bad network address " ++ config ⟨ws ++ [x, y, z]⟩ a b c d p) := by
  have h := NetOutput_unrecognised ⟨config ⟨ws ++ [x, y, z]⟩ a b c d p, listen⟩ sys _
    (sscanf_output_config_after_space ws x y z a b c d p hws hx hy hz hx0 hy0 hz0) hudp htcp
  refine ⟨h, ?_⟩
  rw [h]
  intro e
  injection e with e
  have e' := congrArg String.data e
  simp only [String.data_append] at e'
  injection e' with e1 _
  exact absurd e1 (by decide)

/-- C8 (amended), witnessed on ` ftp://127.0.0.1:5000` (leading space) and on
`ftp://127.0.0.1:5000`. -/
theorem C8_three_char_scheme_unrecognised_witness :
    NetOutput ⟨" ftp://127.0.0.1:5000", false⟩ ⟨3, 0, 0, 0, 0, ⟨0, 0⟩⟩ =
      ⟨.error "unrecognised network protocol  ftp://127.0.0.1:5000", []⟩ ∧
    NetOutput ⟨"ftp://127.0.0.1:5000", true⟩ ⟨3, 0, 0, 0, 0, ⟨0, 0⟩⟩ =
      ⟨.error "unrecognised network protocol ftp://127.0.0.1:5000", []⟩ :=
  ⟨(C8_three_char_scheme_unrecognised [' '] 'f' 't' 'p' 127 0 0 1 5000 false
      ⟨3, 0, 0, 0, 0, ⟨0, 0⟩⟩ (by decide) (by decide) (by decide) (by decide) (by decide)
      (by decide) (by decide) (by decide) (by decide)).1,
   (C8_three_char_scheme_unrecognised [] 'f' 't' 'p' 127 0 0 1 5000 true
      ⟨3, 0, 0, 0, 0, ⟨0, 0⟩⟩ (by decide) (by decide) (by decide) (by decide) (by decide)
      (by decide) (by decide) (by decide) (by decide)).1⟩

/-- C8 as stated fails for schemes that are not three characters long: `%3s`
reads `htt` of `http` (then `p` does not match `:`) and `ud:` of `ud://` (then
`/` does not match `:`), `sscanf` returns 1 and construction fails with the
bad-address error. -/
theorem C8_counterexample :
    (NetOutput ⟨"http://127.0.0.1:5000", false⟩ ⟨3, 0, 0, 0, 0, ⟨0, 0⟩⟩).result =
        .error "bad network address http://127.0.0.1:5000" ∧
    (NetOutput ⟨"ud://127.0.0.1:5000", false⟩ ⟨3, 0, 0, 0, 0, ⟨0, 0⟩⟩).result =
        .error "bad network address ud://127.0.0.1:5000" :=
  ⟨by rfl, by rfl⟩

/-- C10. The port is not range-checked. For every `int` value `p` of the port
(negative or above 65535 included) after a valid address `a.b.c.d`, the
`sscanf` call succeeds with `port = p`, and, the system calls succeeding, the
port of the UDP destination, of the TCP-client destination passed to `connect`
and of the address passed to `bind` by the TCP server is `p mod 2^16`.  Two
configurations whose ports are congruent modulo 65536 construct the same
object with the same system calls. -/
theorem C10_port_not_range_checked (a b c d : Nat) (p : Int) (sys : Sys)
    (ha : a ≤ 255) (hb : b ≤ 255) (hc : c ≤ 255) (hd : d ≤ 255)
    (hlo : -2147483648 ≤ p) (hhi : p ≤ 2147483647)
    (hfd : 0 ≤ sys.socket) (hso : 0 ≤ sys.setsockopt) (hfc : 0 ≤ sys.fcntl)
    (hbind : 0 ≤ sys.bind) (hconn : 0 ≤ sys.connect) :
    (∀ scheme : String, scheme = "udp" ∨ scheme = "tcp" →
      ∃ v, sscanf_output (c_str (config scheme a b c d p).data) = .ok v ∧ v.port = p) ∧
    (∀ listen : Bool, NetOutput ⟨config "udp" a b c d p, listen⟩ sys =
      ⟨.ok ⟨sys.socket, -1,
          ⟨a * 2 ^ 24 + b * 2 ^ 16 + c * 2 ^ 8 + d, (p % 65536).toNat⟩, true,
          sizeof_sockaddr_in⟩,
        [Call.socket SockType.SOCK_DGRAM sys.socket]⟩) ∧
    NetOutput ⟨config "tcp" a b c d p, false⟩ sys =
      ⟨.ok ⟨sys.socket, -1,
          ⟨a * 2 ^ 24 + b * 2 ^ 16 + c * 2 ^ 8 + d, (p % 65536).toNat⟩, false, 0⟩,
        [Call.socket SockType.SOCK_STREAM sys.socket,
          Call.connect sys.socket
            ⟨a * 2 ^ 24 + b * 2 ^ 16 + c * 2 ^ 8 + d, (p % 65536).toNat⟩ sys.connect]⟩ ∧
    NetOutput ⟨config "tcp" a b c d p, true⟩ sys =
      ⟨.ok ⟨-1, sys.socket, sys.saddr_uninit, false, 0⟩,
        [Call.socket SockType.SOCK_STREAM sys.socket,
          Call.setsockopt_reuseaddr sys.socket sys.setsockopt,
          Call.fcntl_nonblock sys.socket sys.fcntl,
          Call.bind sys.socket ⟨INADDR_ANY, (p % 65536).toNat⟩ sys.bind,
          Call.listen sys.socket 1]⟩ ∧
    (∀ (q : Int), -2147483648 ≤ q → q ≤ 2147483647 → q % 65536 = p % 65536 →
      ∀ scheme : String, scheme = "udp" ∨ scheme = "tcp" → ∀ listen : Bool,
        NetOutput ⟨config scheme a b c d q, listen⟩ sys =
          NetOutput ⟨config scheme a b c d p, listen⟩ sys) := by
  have key : ∀ q : Int, -2147483648 ≤ q → q ≤ 2147483647 →
      (sscanf_output (c_str (config "udp" a b c d q).data) =
        .ok ⟨"udp".data, 6, a, b, c, d, 6 + (dotted a b c d).data.length, q⟩ ∧
       sscanf_output (c_str (config "tcp" a b c d q).data) =
        .ok ⟨"tcp".data, 6, a, b, c, d, 6 + (dotted a b c d).data.length, q⟩) := by
    intro q h1 h2
    have hr : ∀ n : Nat, n ≤ 255 → to_int (n : Int) = n := fun n hn =>
      to_int_of_range n (by omega) (by omega)
    have hscan : ∀ x y z : Char, isspace x = false → isspace y = false → isspace z = false →
        x.toNat ≠ 0 → y.toNat ≠ 0 → z.toNat ≠ 0 →
        sscanf_output (c_str (config ⟨[x, y, z]⟩ a b c d q).data) =
          .ok ⟨[x, y, z], 6, a, b, c, d, 6 + (dotted a b c d).data.length, q⟩ := by
      intro x y z h1' h2' h3 h4 h5 h6
      rw [sscanf_output_config x y z a b c d q h1' h2' h3 h4 h5 h6, hr a ha, hr b hb,
        hr c hc, hr d hd, to_int_of_range q h1 h2]
    exact ⟨hscan 'u' 'd' 'p' (by decide) (by decide) (by decide) (by decide) (by decide)
        (by decide),
      hscan 't' 'c' 'p' (by decide) (by decide) (by decide) (by decide) (by decide)
        (by decide)⟩
  have all : ∀ q : Int, -2147483648 ≤ q → q ≤ 2147483647 →
      (∀ listen : Bool, NetOutput ⟨config "udp" a b c d q, listen⟩ sys =
        ⟨.ok ⟨sys.socket, -1,
            ⟨a * 2 ^ 24 + b * 2 ^ 16 + c * 2 ^ 8 + d, (q % 65536).toNat⟩, true,
            sizeof_sockaddr_in⟩,
          [Call.socket SockType.SOCK_DGRAM sys.socket]⟩) ∧
      NetOutput ⟨config "tcp" a b c d q, false⟩ sys =
        ⟨.ok ⟨sys.socket, -1,
            ⟨a * 2 ^ 24 + b * 2 ^ 16 + c * 2 ^ 8 + d, (q % 65536).toNat⟩, false, 0⟩,
          [Call.socket SockType.SOCK_STREAM sys.socket,
            Call.connect sys.socket
              ⟨a * 2 ^ 24 + b * 2 ^ 16 + c * 2 ^ 8 + d, (q % 65536).toNat⟩ sys.connect]⟩ ∧
      NetOutput ⟨config "tcp" a b c d q, true⟩ sys =
        ⟨.ok ⟨-1, sys.socket, sys.saddr_uninit, false, 0⟩,
          [Call.socket SockType.SOCK_STREAM sys.socket,
            Call.setsockopt_reuseaddr sys.socket sys.setsockopt,
            Call.fcntl_nonblock sys.socket sys.fcntl,
            Call.bind sys.socket ⟨INADDR_ANY, (q % 65536).toNat⟩ sys.bind,
            Call.listen sys.socket 1]⟩ := by
    intro q h1 h2
    obtain ⟨hu, ht⟩ := key q h1 h2
    refine ⟨?_, ?_, ?_⟩
    · intro listen
      rw [NetOutput_udp ⟨config "udp" a b c d q, listen⟩ sys _ _ hu rfl
        (inet_aton_config 'u' 'd' 'p' a b c d q ha hb hc hd) hfd]
      rfl
    · rw [NetOutput_tcp_client ⟨config "tcp" a b c d q, false⟩ sys _ _ ht rfl rfl
        (inet_aton_config 't' 'c' 'p' a b c d q ha hb hc hd) hfd hconn]
      rfl
    · rw [NetOutput_tcp_server ⟨config "tcp" a b c d q, true⟩ sys _ ht rfl rfl
        hfd hso hfc hbind]
      rfl
  obtain ⟨hpu, hpc, hps⟩ := all p hlo hhi
  refine ⟨?_, hpu, hpc, hps, ?_⟩
  · intro scheme hs
    obtain ⟨hu, ht⟩ := key p hlo hhi
    rcases hs with rfl | rfl
    · exact ⟨_, hu, rfl⟩
    · exact ⟨_, ht, rfl⟩
  · intro q h1 h2 hmod scheme hs listen
    obtain ⟨hqu, hqc, hqs⟩ := all q h1 h2
    rcases hs with rfl | rfl
    · rw [hqu listen, hpu listen, hmod]
    · cases listen
      · rw [hqc, hpc, hmod]
      · rw [hqs, hps, hmod]

/-- C10, witnessed on `udp://127.0.0.1:70536`, whose destination port is 5000. -/
theorem C10_port_not_range_checked_witness :
    NetOutput ⟨config "udp" 127 0 0 1 70536, false⟩ ⟨3, 0, 0, 0, 0, ⟨0, 0⟩⟩ =
      ⟨.ok ⟨3, -1, ⟨2130706433, 5000⟩, true, 16⟩, [Call.socket SockType.SOCK_DGRAM 3]⟩ :=
  (C10_port_not_range_checked 127 0 0 1 70536 ⟨3, 0, 0, 0, 0, ⟨0, 0⟩⟩
    (by decide) (by decide) (by decide) (by decide) (by decide) (by decide)
    (by decide) (by decide) (by decide) (by decide) (by decide)).2.1 false

end NetOutput
